import Mathlib

/-!
Shallow embedding of `mstools/forcefield/ffterm.py`.

Modelling conventions:
* Python floats are modelled as `ℚ`.  Python 3 guarantees `float(str(x)) == x`,
  so the default string serialization of a float is modelled as the identity on
  the rational value; the fixed-precision dihedral formats `%.1f` / `%.4f` are
  modelled as rounding to the nearest tenth / ten-thousandth (`fmt1` / `fmt4`).
* A ZFP attribute value (a string in the source) is modelled by its parse
  class: a float-parseable string is carried as the rational it denotes, a
  boolean token (str(True)/str(False), parsed back by strtobool) as a `Bool`,
  and any other string as itself (`ZfpVal`).
* A ZFP attribute key is modelled as `ZfpKey`: the fixed schema keys are
  `.plain s`; the variable-arity dihedral keys `phi_<n>` / `k_<n>` are carried
  in structured form `.phiK n` / `.kK n` (the source builds them with
  `'phi_%i' % n` and recovers `n` with `int(key.split('_')[-1])`; no schema
  attribute starts with `phi_`, so this representation is injective on the key
  space the code uses).
* Exceptions are modelled with `Except String`, carrying the message the
  Python code raises.  An uncaught `KeyError k` surfaces as the message `'k'`
  (Python prints the repr of the missing key); an uncaught float-conversion
  `ValueError` surfaces via `valueErrorMsg`.
* Python `**` on floats (used by `MieTerm` with float exponents) has no exact
  rational counterpart; the Mie functions abstract it as an explicit power
  oracle argument `fpow : ℚ → ℚ → ℚ`.  The divisions, which are what raise
  `ZeroDivisionError`, are modelled exactly by `pydiv`.
-/

/-- Python `s or name` for strings: the empty string is falsy. -/
def orName (v nm : String) : String := if v = "" then nm else v

/-- Python `at1, at2 = sorted([type1, type2])`. -/
def sortPair (a b : String) : String × String := if b < a then (b, a) else (a, b)

/-- Python tuple comparison `t < u`, lexicographic, on lists of strings. -/
def tupLt : List String → List String → Bool
  | _, [] => false
  | [], _ :: _ => true
  | a :: as, b :: bs => decide (a < b) || (decide (a = b) && tupLt as bs)

/-- Python `'%.1f' % x` followed by `float(...)`: round to the nearest tenth. -/
def fmt1 (x : ℚ) : ℚ := ((round (x * 10) : ℤ) : ℚ) / 10

/-- Python `'%.4f' % x` followed by `float(...)`: round to the nearest 1/10000. -/
def fmt4 (x : ℚ) : ℚ := ((round (x * 10000) : ℤ) : ℚ) / 10000

/-- Python float division: raises ZeroDivisionError on a zero denominator. -/
def pydiv (a b : ℚ) : Except String ℚ :=
  if b = 0 then .error "ZeroDivisionError: float division by zero" else .ok (a / b)

/-- `AtomType` (ffterm.py): name, mass, charge and the equivalent-type table. -/
structure AtomType where
  name : String
  mass : ℚ
  charge : ℚ
  eqt_vdw : String
  eqt_q_inc : String
  eqt_bond : String
  eqt_ang_c : String
  eqt_ang_s : String
  eqt_dih_c : String
  eqt_dih_s : String
  eqt_imp_c : String
  eqt_imp_s : String
  eqt_polar : String
deriving DecidableEq

/-- `AtomType.__init__`: every `eqt_*` falls back to `name` when falsy. -/
def AtomType.init (name : String) (mass charge : ℚ)
    (eqt_vdw eqt_q_inc eqt_bond eqt_ang_c eqt_ang_s eqt_dih_c eqt_dih_s
     eqt_imp_c eqt_imp_s eqt_polar : String) : AtomType :=
  { name := name, mass := mass, charge := charge
    eqt_vdw := orName eqt_vdw name
    eqt_q_inc := orName eqt_q_inc name
    eqt_bond := orName eqt_bond name
    eqt_ang_c := orName eqt_ang_c name
    eqt_ang_s := orName eqt_ang_s name
    eqt_dih_c := orName eqt_dih_c name
    eqt_dih_s := orName eqt_dih_s name
    eqt_imp_c := orName eqt_imp_c name
    eqt_imp_s := orName eqt_imp_s name
    eqt_polar := orName eqt_polar name }

/-- `ChargeIncrementTerm`: a sorted pair of types and the signed increment. -/
structure ChargeIncrementTerm where
  type1 : String
  type2 : String
  value : ℚ
deriving DecidableEq

/-- `ChargeIncrementTerm.__init__`. -/
def ChargeIncrementTerm.init (type1 type2 : String) (value : ℚ) :
    Except String ChargeIncrementTerm :=
  if type1 = type2 ∧ value ≠ 0 then
    .error "Non-zero charge increment between atoms of same type"
  else
    let p := sortPair type1 type2
    .ok { type1 := p.1, type2 := p.2, value := if p.1 = type1 then value else -value }

/-- `ChargeIncrementTerm.name`, the `'%s,%s'` canonical key. -/
def ChargeIncrementTerm.name (t : ChargeIncrementTerm) : String :=
  t.type1 ++ "," ++ t.type2

/-- Base class `VdwTerm`. -/
structure VdwTerm where
  type1 : String
  type2 : String
deriving DecidableEq

/-- `VdwTerm.__init__`. -/
def VdwTerm.init (type1 type2 : String) : VdwTerm :=
  let p := sortPair type1 type2
  { type1 := p.1, type2 := p.2 }

/-- `VdwTerm.name`. -/
def VdwTerm.name (t : VdwTerm) : String := t.type1 ++ "," ++ t.type2

/-- Base class `BondTerm`. -/
structure BondTerm where
  type1 : String
  type2 : String
  length : ℚ
  fixed : Bool
deriving DecidableEq

/-- `BondTerm.__init__`. -/
def BondTerm.init (type1 type2 : String) (length : ℚ) (fixed : Bool) : BondTerm :=
  let p := sortPair type1 type2
  { type1 := p.1, type2 := p.2, length := length, fixed := fixed }

/-- `BondTerm.name`. -/
def BondTerm.name (t : BondTerm) : String := t.type1 ++ "," ++ t.type2

/-- Base class `AngleTerm`: side atoms sorted, the center (`type2`) kept. -/
structure AngleTerm where
  type1 : String
  type2 : String
  type3 : String
  theta : ℚ
  fixed : Bool
deriving DecidableEq

/-- `AngleTerm.__init__`. -/
def AngleTerm.init (type1 type2 type3 : String) (theta : ℚ) (fixed : Bool) : AngleTerm :=
  let p := sortPair type1 type3
  { type1 := p.1, type2 := type2, type3 := p.2, theta := theta, fixed := fixed }

/-- `AngleTerm.name`. -/
def AngleTerm.name (t : AngleTerm) : String := t.type1 ++ "," ++ t.type2 ++ "," ++ t.type3

/-- `DihedralTerm.__init__` body: wildcard check and canonical ordering of the
four atom types.  Mirrors
`min([(type1,type2,type3,type4), (type4,type3,type2,type1)])` via `tupLt`. -/
def dihedralCanon (type1 type2 type3 type4 : String) :
    Except String (String × String × String × String) :=
  if type2 = "*" ∨ type3 = "*" then
    .error "Wildcard not allowed for center atoms in DihedralTerm"
  else if [type1, type4].count "*" = 0 ∨ [type1, type4].count "*" = 2 then
    .ok (if tupLt [type4, type3, type2, type1] [type1, type2, type3, type4] then
          (type4, type3, type2, type1)
         else (type1, type2, type3, type4))
  else if type1 = "*" then .ok (type4, type3, type2, type1)
  else .ok (type1, type2, type3, type4)

/-- Base class `DihedralTerm`. -/
structure DihedralTerm where
  type1 : String
  type2 : String
  type3 : String
  type4 : String
deriving DecidableEq

/-- `DihedralTerm.__init__`. -/
def DihedralTerm.init (type1 type2 type3 type4 : String) : Except String DihedralTerm :=
  match dihedralCanon type1 type2 type3 type4 with
  | .error e => .error e
  | .ok (a1, a2, a3, a4) => .ok { type1 := a1, type2 := a2, type3 := a3, type4 := a4 }

/-- `DihedralTerm.name`. -/
def DihedralTerm.name (t : DihedralTerm) : String :=
  t.type1 ++ "," ++ t.type2 ++ "," ++ t.type3 ++ "," ++ t.type4

/-- The side-slot computation of `ImproperTerm.__init__`: the non-wildcard
sides sorted (Python `sorted`, stable, = `insertionSort`), padded with `'*'`
to exactly three entries. -/
def improperSides (type2 type3 type4 : String) : List String :=
  let nw := List.filter (fun t => t ≠ "*") [type2, type3, type4]
  let sorted := List.insertionSort (fun (a b : String) => a ≤ b) nw
  sorted ++ List.replicate (3 - sorted.length) "*"

/-- `ImproperTerm.__init__` body: fixed center (wildcard forbidden), then the
padded side list.  The list destructuring of the source is rendered with
`getD`; the padded list always has exactly three entries. -/
def improperCanon (type1 type2 type3 type4 : String) :
    Except String (String × String × String × String) :=
  if type1 = "*" then .error "Wildcard not allowed for center atoms in ImproperTerm"
  else
    let padded := improperSides type2 type3 type4
    .ok (type1, padded.getD 0 "*", padded.getD 1 "*", padded.getD 2 "*")

/-- Base class `ImproperTerm`. -/
structure ImproperTerm where
  type1 : String
  type2 : String
  type3 : String
  type4 : String
deriving DecidableEq

/-- `ImproperTerm.__init__`. -/
def ImproperTerm.init (type1 type2 type3 type4 : String) : Except String ImproperTerm :=
  match improperCanon type1 type2 type3 type4 with
  | .error e => .error e
  | .ok (a1, a2, a3, a4) => .ok { type1 := a1, type2 := a2, type3 := a3, type4 := a4 }

/-- `ImproperTerm.name`. -/
def ImproperTerm.name (t : ImproperTerm) : String :=
  t.type1 ++ "," ++ t.type2 ++ "," ++ t.type3 ++ "," ++ t.type4

/-- Base class `PolarizableTerm`. -/
structure PolarizableTerm where
  type : String
deriving DecidableEq

/-- `PolarizableTerm.__init__`. -/
def PolarizableTerm.init (type : String) : PolarizableTerm := { type := type }

/-- `PolarizableTerm.name`. -/
def PolarizableTerm.name (t : PolarizableTerm) : String := t.type

/-- `LJ126Term`. -/
structure LJ126Term where
  type1 : String
  type2 : String
  epsilon : ℚ
  sigma : ℚ
deriving DecidableEq

/-- `LJ126Term.__init__` (via `VdwTerm.__init__`). -/
def LJ126Term.init (type1 type2 : String) (epsilon sigma : ℚ) : LJ126Term :=
  let p := sortPair type1 type2
  { type1 := p.1, type2 := p.2, epsilon := epsilon, sigma := sigma }

/-- `LJ126Term.name`. -/
def LJ126Term.name (t : LJ126Term) : String := t.type1 ++ "," ++ t.type2

/-- `LJ126Term.evaluate_energy`: `4*eps*((sigma/r)**12 - (sigma/r)**6)`. -/
def LJ126Term.evaluate_energy (t : LJ126Term) (r : ℚ) : Except String ℚ :=
  match pydiv t.sigma r with
  | .error e => .error e
  | .ok sr => .ok (4 * t.epsilon * (sr ^ (12 : ℕ) - sr ^ (6 : ℕ)))

/-- `MieTerm`. -/
structure MieTerm where
  type1 : String
  type2 : String
  epsilon : ℚ
  sigma : ℚ
  repulsion : ℚ
  attraction : ℚ
deriving DecidableEq

/-- `MieTerm.__init__` (via `VdwTerm.__init__`). -/
def MieTerm.init (type1 type2 : String) (epsilon sigma repulsion attraction : ℚ) : MieTerm :=
  let p := sortPair type1 type2
  { type1 := p.1, type2 := p.2, epsilon := epsilon, sigma := sigma
    repulsion := repulsion, attraction := attraction }

/-- `MieTerm.name`. -/
def MieTerm.name (t : MieTerm) : String := t.type1 ++ "," ++ t.type2

/-- `MieTerm.factor_energy`: `rep/(rep-att) * (rep/att) ** (att/(rep-att))`,
with Python `**` abstracted by `fpow`. -/
def MieTerm.factor_energy (fpow : ℚ → ℚ → ℚ) (t : MieTerm) : Except String ℚ :=
  match pydiv t.repulsion (t.repulsion - t.attraction) with
  | .error e => .error e
  | .ok a =>
    match pydiv t.repulsion t.attraction with
    | .error e => .error e
    | .ok b =>
      match pydiv t.attraction (t.repulsion - t.attraction) with
      | .error e => .error e
      | .ok c => .ok (a * fpow b c)

/-- `MieTerm.factor_r_min`: `(rep/att) ** (1/(rep-att))`. -/
def MieTerm.factor_r_min (fpow : ℚ → ℚ → ℚ) (t : MieTerm) : Except String ℚ :=
  match pydiv t.repulsion t.attraction with
  | .error e => .error e
  | .ok b =>
    match pydiv 1 (t.repulsion - t.attraction) with
    | .error e => .error e
    | .ok c => .ok (fpow b c)

/-- `MieTerm.evaluate_energy`:
`factor_energy() * epsilon * ((sigma/r)**rep - (sigma/r)**att)`. -/
def MieTerm.evaluate_energy (fpow : ℚ → ℚ → ℚ) (t : MieTerm) (r : ℚ) : Except String ℚ :=
  match t.factor_energy fpow with
  | .error e => .error e
  | .ok f =>
    match pydiv t.sigma r with
    | .error e => .error e
    | .ok sr => .ok (f * t.epsilon * (fpow sr t.repulsion - fpow sr t.attraction))

/-- `HarmonicBondTerm`. -/
structure HarmonicBondTerm where
  type1 : String
  type2 : String
  length : ℚ
  k : ℚ
  fixed : Bool
deriving DecidableEq

/-- `HarmonicBondTerm.__init__` (via `BondTerm.__init__`). -/
def HarmonicBondTerm.init (type1 type2 : String) (length k : ℚ) (fixed : Bool) :
    HarmonicBondTerm :=
  let p := sortPair type1 type2
  { type1 := p.1, type2 := p.2, length := length, k := k, fixed := fixed }

/-- `HarmonicBondTerm.name`. -/
def HarmonicBondTerm.name (t : HarmonicBondTerm) : String := t.type1 ++ "," ++ t.type2

/-- `HarmonicBondTerm.evaluate_energy`: `k * (val-length)**2`. -/
def HarmonicBondTerm.evaluate_energy (t : HarmonicBondTerm) (val : ℚ) : ℚ :=
  t.k * (val - t.length) ^ (2 : ℕ)

/-- `HarmonicAngleTerm`. -/
structure HarmonicAngleTerm where
  type1 : String
  type2 : String
  type3 : String
  theta : ℚ
  k : ℚ
  fixed : Bool
deriving DecidableEq

/-- `HarmonicAngleTerm.__init__` (via `AngleTerm.__init__`). -/
def HarmonicAngleTerm.init (type1 type2 type3 : String) (theta k : ℚ) (fixed : Bool) :
    HarmonicAngleTerm :=
  let p := sortPair type1 type3
  { type1 := p.1, type2 := type2, type3 := p.2, theta := theta, k := k, fixed := fixed }

/-- `HarmonicAngleTerm.name`. -/
def HarmonicAngleTerm.name (t : HarmonicAngleTerm) : String :=
  t.type1 ++ "," ++ t.type2 ++ "," ++ t.type3

/-- `SDKAngleTerm`. -/
structure SDKAngleTerm where
  type1 : String
  type2 : String
  type3 : String
  theta : ℚ
  k : ℚ
deriving DecidableEq

/-- `SDKAngleTerm.__init__` (via `AngleTerm.__init__`, `fixed=False`). -/
def SDKAngleTerm.init (type1 type2 type3 : String) (theta k : ℚ) : SDKAngleTerm :=
  let p := sortPair type1 type3
  { type1 := p.1, type2 := type2, type3 := p.2, theta := theta, k := k }

/-- `SDKAngleTerm.name`. -/
def SDKAngleTerm.name (t : SDKAngleTerm) : String :=
  t.type1 ++ "," ++ t.type2 ++ "," ++ t.type3

/-- The namedtuple `PeriodicDihedralTerm.Parameter(phi, k, n)`.  The
multiplicity `n` is an `ℤ` (Python checks `isinstance(n, int)`). -/
structure DihPara where
  phi : ℚ
  k : ℚ
  n : ℤ
deriving DecidableEq

/-- `PeriodicDihedralTerm`. -/
structure PeriodicDihedralTerm where
  type1 : String
  type2 : String
  type3 : String
  type4 : String
  parameters : List DihPara
deriving DecidableEq

/-- `PeriodicDihedralTerm.__init__` (via `DihedralTerm.__init__`); starts with
an empty parameter list. -/
def PeriodicDihedralTerm.init (type1 type2 type3 type4 : String) :
    Except String PeriodicDihedralTerm :=
  match dihedralCanon type1 type2 type3 type4 with
  | .error e => .error e
  | .ok (a1, a2, a3, a4) =>
    .ok { type1 := a1, type2 := a2, type3 := a3, type4 := a4, parameters := [] }

/-- `PeriodicDihedralTerm.name`. -/
def PeriodicDihedralTerm.name (t : PeriodicDihedralTerm) : String :=
  t.type1 ++ "," ++ t.type2 ++ "," ++ t.type3 ++ "," ++ t.type4

/-- `PeriodicDihedralTerm.add_parameter`: rejects a non-positive multiplicity
and a duplicated multiplicity, then appends and re-sorts by `n` (Python's
`list.sort` is stable; `insertionSort` is the same stable sort). -/
def PeriodicDihedralTerm.add_parameter (t : PeriodicDihedralTerm) (phi k : ℚ) (n : ℤ) :
    Except String PeriodicDihedralTerm :=
  if n < 1 then .error ("Multiplicity should be a positive integer: " ++ t.name)
  else if t.parameters.any (fun p => p.n == n) then
    .error ("Duplicated multiplicity: " ++ t.name)
  else
    let ps := List.insertionSort (fun (a b : DihPara) => a.n ≤ b.n)
      (t.parameters ++ [{ phi := phi, k := k, n := n }])
    .ok { t with parameters := ps }

/-- `PeriodicDihedralTerm.is_opls_convention`. -/
def PeriodicDihedralTerm.is_opls_convention (t : PeriodicDihedralTerm) : Bool :=
  t.parameters.all fun p =>
    if p.n = 1 then decide (p.phi = 0)
    else if p.n = 2 then decide (p.phi = 180)
    else if p.n = 3 then decide (p.phi = 0)
    else if p.n = 4 then decide (p.phi = 180)
    else decide (p.k = 0)

/-- `PeriodicDihedralTerm.is_zero`. -/
def PeriodicDihedralTerm.is_zero (t : PeriodicDihedralTerm) : Bool :=
  t.parameters.all fun p => decide (p.k = 0)

/-- Python `str(self)` of a term, `'<ClassName: name>'`. -/
def pdtStr (t : PeriodicDihedralTerm) : String :=
  "<PeriodicDihedralTerm: " ++ t.name ++ ">"

/-- The loop body of `PeriodicDihedralTerm.get_opls_parameters`. -/
def oplsGo (nm : String) : List DihPara → ℚ × ℚ × ℚ × ℚ → Except String (ℚ × ℚ × ℚ × ℚ)
  | [], acc => .ok acc
  | p :: ps, (k1, k2, k3, k4) =>
    if p.n = 1 then
      if p.phi ≠ 0 then .error (nm ++ " does not follow OPLS convention, phi_1 != 0")
      else oplsGo nm ps (p.k, k2, k3, k4)
    else if p.n = 2 then
      if p.phi ≠ 180 then .error (nm ++ " does not follow OPLS convention, phi_2 != 180")
      else oplsGo nm ps (k1, p.k, k3, k4)
    else if p.n = 3 then
      if p.phi ≠ 0 then .error (nm ++ " does not follow OPLS convention, phi_3 != 0")
      else oplsGo nm ps (k1, k2, p.k, k4)
    else if p.n = 4 then
      if p.phi ≠ 180 then .error (nm ++ " does not follow OPLS convention, phi_4 != 180")
      else oplsGo nm ps (k1, k2, k3, p.k)
    else .error (nm ++ " does not follow OPLS convention, n > 4")

/-- `PeriodicDihedralTerm.get_opls_parameters`. -/
def PeriodicDihedralTerm.get_opls_parameters (t : PeriodicDihedralTerm) :
    Except String (ℚ × ℚ × ℚ × ℚ) :=
  oplsGo (pdtStr t) t.parameters (0, 0, 0, 0)

/-- `OplsImproperTerm`. -/
structure OplsImproperTerm where
  type1 : String
  type2 : String
  type3 : String
  type4 : String
  k : ℚ
deriving DecidableEq

/-- `OplsImproperTerm.__init__` (via `ImproperTerm.__init__`). -/
def OplsImproperTerm.init (type1 type2 type3 type4 : String) (k : ℚ) :
    Except String OplsImproperTerm :=
  match improperCanon type1 type2 type3 type4 with
  | .error e => .error e
  | .ok (a1, a2, a3, a4) =>
    .ok { type1 := a1, type2 := a2, type3 := a3, type4 := a4, k := k }

/-- `OplsImproperTerm.name`. -/
def OplsImproperTerm.name (t : OplsImproperTerm) : String :=
  t.type1 ++ "," ++ t.type2 ++ "," ++ t.type3 ++ "," ++ t.type4

/-- `HarmonicImproperTerm`. -/
structure HarmonicImproperTerm where
  type1 : String
  type2 : String
  type3 : String
  type4 : String
  phi : ℚ
  k : ℚ
deriving DecidableEq

/-- `HarmonicImproperTerm.__init__` (via `ImproperTerm.__init__`). -/
def HarmonicImproperTerm.init (type1 type2 type3 type4 : String) (phi k : ℚ) :
    Except String HarmonicImproperTerm :=
  match improperCanon type1 type2 type3 type4 with
  | .error e => .error e
  | .ok (a1, a2, a3, a4) =>
    .ok { type1 := a1, type2 := a2, type3 := a3, type4 := a4, phi := phi, k := k }

/-- `HarmonicImproperTerm.name`. -/
def HarmonicImproperTerm.name (t : HarmonicImproperTerm) : String :=
  t.type1 ++ "," ++ t.type2 ++ "," ++ t.type3 ++ "," ++ t.type4

/-- `DrudeTerm` (a `PolarizableTerm`). -/
structure DrudeTerm where
  type : String
  alpha : ℚ
  thole : ℚ
  k : ℚ
  mass : ℚ
  merge_alpha_H : ℚ
deriving DecidableEq

/-- `DrudeTerm.__init__`. -/
def DrudeTerm.init (type : String) (alpha thole k mass merge_alpha_H : ℚ) : DrudeTerm :=
  { type := type, alpha := alpha, thole := thole, k := k, mass := mass
    merge_alpha_H := merge_alpha_H }

/-- `DrudeTerm.name`. -/
def DrudeTerm.name (t : DrudeTerm) : String := t.type

/-- A ZFP attribute key.  Schema keys are plain strings; the dihedral
`phi_<n>` / `k_<n>` keys are carried in structured form (see header). -/
inductive ZfpKey where
  | plain (s : String)
  | phiK (n : ℤ)
  | kK (n : ℤ)
deriving DecidableEq

/-- A ZFP attribute value, a string in the source, modelled by parse class:
float-parseable strings as `ℚ`, boolean tokens as `Bool`, others as raw. -/
inductive ZfpVal where
  | s (v : String)
  | q (v : ℚ)
  | b (v : Bool)
deriving DecidableEq

/-- The flat string mapping of one ZFP xml element (insertion-ordered). -/
abbrev ZfpDict := List (ZfpKey × ZfpVal)

/-- Python `d[key]` on the attribute dict, as an `Option`. -/
def lookupZ : ZfpDict → ZfpKey → Option ZfpVal
  | [], _ => none
  | (k, v) :: rest, key => if key = k then some v else lookupZ rest key

/-- Rendering of a key back to its source string form. -/
def keyStr : ZfpKey → String
  | .plain s => s
  | .phiK n => "phi_" ++ toString n
  | .kK n => "k_" ++ toString n

/-- Rendering of a value back to its source string form (numeric rendering is
abstracted; it only feeds error messages). -/
def zfpValStr : ZfpVal → String
  | .s v => v
  | .q v => toString v
  | .b v => if v then "True" else "False"

/-- Python's message for an uncaught `KeyError`: the repr of the missing key. -/
def keyErrorMsg (attr : String) : String := "'" ++ attr ++ "'"

/-- Python's message for an uncaught float-conversion `ValueError`. -/
def valueErrorMsg (v : ZfpVal) : String :=
  "could not convert string to float: '" ++ zfpValStr v ++ "'"

/-- `str(d)` of the attribute dict, used in the `Cannot init` message. -/
def entriesStr : List (ZfpKey × ZfpVal) → String
  | [] => ""
  | [(k, v)] => "'" ++ keyStr k ++ "': '" ++ zfpValStr v ++ "'"
  | (k, v) :: rest => "'" ++ keyStr k ++ "': '" ++ zfpValStr v ++ "', " ++ entriesStr rest

/-- `str(d)` with the surrounding braces. -/
def dictStr (d : ZfpDict) : String := "\x7b" ++ entriesStr d ++ "\x7d"

/-- The declared type of a schema attribute (`str`, `float`,
`lambda x: bool(strtobool(x))`). -/
inductive AttrTy where
  | str
  | float
  | boolean
deriving DecidableEq

/-- Applying a schema decode function to a stored value: succeeds exactly when
the value belongs to the attribute's parse class. -/
def decodeAttr : AttrTy → ZfpVal → Option ZfpVal
  | .str, .s v => some (.s v)
  | .float, .q v => some (.q v)
  | .boolean, .b v => some (.b v)
  | _, _ => none

/-- The sum of all concrete term variants, as produced by the factory. -/
inductive FFTerm where
  | atomType (t : AtomType)
  | chargeIncrement (t : ChargeIncrementTerm)
  | lj126 (t : LJ126Term)
  | mie (t : MieTerm)
  | harmonicBond (t : HarmonicBondTerm)
  | harmonicAngle (t : HarmonicAngleTerm)
  | sdkAngle (t : SDKAngleTerm)
  | periodicDihedral (t : PeriodicDihedralTerm)
  | oplsImproper (t : OplsImproperTerm)
  | harmonicImproper (t : HarmonicImproperTerm)
  | drude (t : DrudeTerm)
deriving DecidableEq

/-- `FFTerm.name` across the variants. -/
def FFTerm.name : FFTerm → String
  | .atomType t => t.name
  | .chargeIncrement t => t.name
  | .lj126 t => t.name
  | .mie t => t.name
  | .harmonicBond t => t.name
  | .harmonicAngle t => t.name
  | .sdkAngle t => t.name
  | .periodicDihedral t => t.name
  | .oplsImproper t => t.name
  | .harmonicImproper t => t.name
  | .drude t => t.name

/-- `PeriodicDihedralTerm._to_zfp_extra`: each parameter contributes
`phi_<n>` (via `%.1f`) and `k_<n>` (via `%.4f`). -/
def dihExtras : List DihPara → ZfpDict
  | [] => []
  | p :: ps => (ZfpKey.phiK p.n, ZfpVal.q (fmt1 p.phi)) ::
      (ZfpKey.kK p.n, ZfpVal.q (fmt4 p.k)) :: dihExtras ps

/-- `FFTerm.to_zfp`: the schema attributes in declaration order (each via
`str(getattr(self, attr))`), merged with `_to_zfp_extra()`. -/
def to_zfp : FFTerm → ZfpDict
  | .atomType t =>
      [(.plain "name", .s t.name), (.plain "mass", .q t.mass),
       (.plain "charge", .q t.charge), (.plain "eqt_vdw", .s t.eqt_vdw),
       (.plain "eqt_bond", .s t.eqt_bond), (.plain "eqt_q_inc", .s t.eqt_q_inc),
       (.plain "eqt_ang_c", .s t.eqt_ang_c), (.plain "eqt_ang_s", .s t.eqt_ang_s),
       (.plain "eqt_dih_c", .s t.eqt_dih_c), (.plain "eqt_dih_s", .s t.eqt_dih_s),
       (.plain "eqt_imp_c", .s t.eqt_imp_c), (.plain "eqt_imp_s", .s t.eqt_imp_s),
       (.plain "eqt_polar", .s t.eqt_polar)]
  | .chargeIncrement t =>
      [(.plain "type1", .s t.type1), (.plain "type2", .s t.type2),
       (.plain "value", .q t.value)]
  | .lj126 t =>
      [(.plain "type1", .s t.type1), (.plain "type2", .s t.type2),
       (.plain "epsilon", .q t.epsilon), (.plain "sigma", .q t.sigma)]
  | .mie t =>
      [(.plain "type1", .s t.type1), (.plain "type2", .s t.type2),
       (.plain "epsilon", .q t.epsilon), (.plain "sigma", .q t.sigma),
       (.plain "repulsion", .q t.repulsion), (.plain "attraction", .q t.attraction)]
  | .harmonicBond t =>
      [(.plain "type1", .s t.type1), (.plain "type2", .s t.type2),
       (.plain "length", .q t.length), (.plain "k", .q t.k),
       (.plain "fixed", .b t.fixed)]
  | .harmonicAngle t =>
      [(.plain "type1", .s t.type1), (.plain "type2", .s t.type2),
       (.plain "type3", .s t.type3), (.plain "theta", .q t.theta),
       (.plain "k", .q t.k), (.plain "fixed", .b t.fixed)]
  | .sdkAngle t =>
      [(.plain "type1", .s t.type1), (.plain "type2", .s t.type2),
       (.plain "type3", .s t.type3), (.plain "theta", .q t.theta),
       (.plain "k", .q t.k)]
  | .periodicDihedral t =>
      [(.plain "type1", .s t.type1), (.plain "type2", .s t.type2),
       (.plain "type3", .s t.type3), (.plain "type4", .s t.type4)]
        ++ dihExtras t.parameters
  | .oplsImproper t =>
      [(.plain "type1", .s t.type1), (.plain "type2", .s t.type2),
       (.plain "type3", .s t.type3), (.plain "type4", .s t.type4),
       (.plain "k", .q t.k)]
  | .harmonicImproper t =>
      [(.plain "type1", .s t.type1), (.plain "type2", .s t.type2),
       (.plain "type3", .s t.type3), (.plain "type4", .s t.type4),
       (.plain "phi", .q t.phi), (.plain "k", .q t.k)]
  | .drude t =>
      [(.plain "type", .s t.type), (.plain "alpha", .q t.alpha),
       (.plain "thole", .q t.thole), (.plain "k", .q t.k),
       (.plain "mass", .q t.mass), (.plain "merge_alpha_H", .q t.merge_alpha_H)]

/-- `float(d[key])` used by `_from_zfp_extra`: an uncaught `KeyError` or
`ValueError` propagates. -/
def getFloat (d : ZfpDict) (key : ZfpKey) : Except String ℚ :=
  match lookupZ d key with
  | none => .error (keyErrorMsg (keyStr key))
  | some (.q x) => .ok x
  | some v => .error (valueErrorMsg v)

/-- The loop of `PeriodicDihedralTerm._from_zfp_extra`: scan every key of the
dict; each `phi_<n>` key triggers `add_parameter(float(d[phi_n]),
float(d[k_n]), n)`. -/
def dihLoop (d : ZfpDict) : List (ZfpKey × ZfpVal) → PeriodicDihedralTerm →
    Except String PeriodicDihedralTerm
  | [], t => .ok t
  | (key, _) :: rest, t =>
    match key with
    | .phiK n =>
      match getFloat d (.phiK n) with
      | .error e => .error e
      | .ok phi =>
        match getFloat d (.kK n) with
        | .error e => .error e
        | .ok k =>
          match t.add_parameter phi k n with
          | .error e => .error e
          | .ok t' => dihLoop d rest t'
    | _ => dihLoop d rest t

/-- `FFTerm._from_zfp_extra`: a no-op except for `PeriodicDihedralTerm`. -/
def from_zfp_extra (t : FFTerm) (d : ZfpDict) : Except String FFTerm :=
  match t with
  | .periodicDihedral p =>
    match dihLoop d d p with
    | .error e => .error e
    | .ok p' => .ok (.periodicDihedral p')
  | _ => .ok t

/-- One registered class: its `_zfp_attrs` schema and its constructor
(applied to the decoded kwargs, in schema order). -/
structure ZfpClass where
  schema : List (String × AttrTy)
  ctor : List ZfpVal → Except String FFTerm

/-- `AtomType._zfp_attrs`. -/
def atomTypeClass : ZfpClass where
  schema := [("name", .str), ("mass", .float), ("charge", .float),
    ("eqt_vdw", .str), ("eqt_bond", .str), ("eqt_q_inc", .str),
    ("eqt_ang_c", .str), ("eqt_ang_s", .str), ("eqt_dih_c", .str),
    ("eqt_dih_s", .str), ("eqt_imp_c", .str), ("eqt_imp_s", .str),
    ("eqt_polar", .str)]
  ctor
    | [.s nm, .q mass, .q charge, .s evdw, .s ebond, .s eqinc, .s eangc,
       .s eangs, .s edihc, .s edihs, .s eimpc, .s eimps, .s epolar] =>
      .ok (.atomType (AtomType.init nm mass charge evdw eqinc ebond eangc eangs
        edihc edihs eimpc eimps epolar))
    | _ => .error "TypeError"

/-- `ChargeIncrementTerm._zfp_attrs`. -/
def chargeIncrementClass : ZfpClass where
  schema := [("type1", .str), ("type2", .str), ("value", .float)]
  ctor
    | [.s t1, .s t2, .q v] =>
      match ChargeIncrementTerm.init t1 t2 v with
      | .error e => .error e
      | .ok t => .ok (.chargeIncrement t)
    | _ => .error "TypeError"

/-- `LJ126Term._zfp_attrs`. -/
def lj126Class : ZfpClass where
  schema := [("type1", .str), ("type2", .str), ("epsilon", .float), ("sigma", .float)]
  ctor
    | [.s t1, .s t2, .q eps, .q sig] => .ok (.lj126 (LJ126Term.init t1 t2 eps sig))
    | _ => .error "TypeError"

/-- `MieTerm._zfp_attrs`. -/
def mieClass : ZfpClass where
  schema := [("type1", .str), ("type2", .str), ("epsilon", .float),
    ("sigma", .float), ("repulsion", .float), ("attraction", .float)]
  ctor
    | [.s t1, .s t2, .q eps, .q sig, .q rep, .q att] =>
      .ok (.mie (MieTerm.init t1 t2 eps sig rep att))
    | _ => .error "TypeError"

/-- `HarmonicBondTerm._zfp_attrs`. -/
def harmonicBondClass : ZfpClass where
  schema := [("type1", .str), ("type2", .str), ("length", .float), ("k", .float),
    ("fixed", .boolean)]
  ctor
    | [.s t1, .s t2, .q len, .q k, .b fx] =>
      .ok (.harmonicBond (HarmonicBondTerm.init t1 t2 len k fx))
    | _ => .error "TypeError"

/-- `HarmonicAngleTerm._zfp_attrs`. -/
def harmonicAngleClass : ZfpClass where
  schema := [("type1", .str), ("type2", .str), ("type3", .str), ("theta", .float),
    ("k", .float), ("fixed", .boolean)]
  ctor
    | [.s t1, .s t2, .s t3, .q th, .q k, .b fx] =>
      .ok (.harmonicAngle (HarmonicAngleTerm.init t1 t2 t3 th k fx))
    | _ => .error "TypeError"

/-- `SDKAngleTerm._zfp_attrs`. -/
def sdkAngleClass : ZfpClass where
  schema := [("type1", .str), ("type2", .str), ("type3", .str), ("theta", .float),
    ("k", .float)]
  ctor
    | [.s t1, .s t2, .s t3, .q th, .q k] =>
      .ok (.sdkAngle (SDKAngleTerm.init t1 t2 t3 th k))
    | _ => .error "TypeError"

/-- `PeriodicDihedralTerm._zfp_attrs`. -/
def periodicDihedralClass : ZfpClass where
  schema := [("type1", .str), ("type2", .str), ("type3", .str), ("type4", .str)]
  ctor
    | [.s t1, .s t2, .s t3, .s t4] =>
      match PeriodicDihedralTerm.init t1 t2 t3 t4 with
      | .error e => .error e
      | .ok t => .ok (.periodicDihedral t)
    | _ => .error "TypeError"

/-- `OplsImproperTerm._zfp_attrs`. -/
def oplsImproperClass : ZfpClass where
  schema := [("type1", .str), ("type2", .str), ("type3", .str), ("type4", .str),
    ("k", .float)]
  ctor
    | [.s t1, .s t2, .s t3, .s t4, .q k] =>
      match OplsImproperTerm.init t1 t2 t3 t4 k with
      | .error e => .error e
      | .ok t => .ok (.oplsImproper t)
    | _ => .error "TypeError"

/-- `HarmonicImproperTerm._zfp_attrs`. -/
def harmonicImproperClass : ZfpClass where
  schema := [("type1", .str), ("type2", .str), ("type3", .str), ("type4", .str),
    ("phi", .float), ("k", .float)]
  ctor
    | [.s t1, .s t2, .s t3, .s t4, .q phi, .q k] =>
      match HarmonicImproperTerm.init t1 t2 t3 t4 phi k with
      | .error e => .error e
      | .ok t => .ok (.harmonicImproper t)
    | _ => .error "TypeError"

/-- `DrudeTerm._zfp_attrs`. -/
def drudeClass : ZfpClass where
  schema := [("type", .str), ("alpha", .float), ("thole", .float), ("k", .float),
    ("mass", .float), ("merge_alpha_H", .float)]
  ctor
    | [.s ty, .q alpha, .q thole, .q k, .q mass, .q mrg] =>
      .ok (.drude (DrudeTerm.init ty alpha thole k mass mrg))
    | _ => .error "TypeError"

/-- `FFTermFactory._class_map`: the registrations, in module order. -/
def classMap : List (String × ZfpClass) :=
  [("AtomType", atomTypeClass),
   ("ChargeIncrementTerm", chargeIncrementClass),
   ("LJ126Term", lj126Class),
   ("MieTerm", mieClass),
   ("HarmonicBondTerm", harmonicBondClass),
   ("HarmonicAngleTerm", harmonicAngleClass),
   ("SDKAngleTerm", sdkAngleClass),
   ("PeriodicDihedralTerm", periodicDihedralClass),
   ("OplsImproperTerm", oplsImproperClass),
   ("HarmonicImproperTerm", harmonicImproperClass),
   ("DrudeTerm", drudeClass)]

/-- `FFTermFactory._class_map[name]` lookup. -/
def findClass : List (String × ZfpClass) → String → Option ZfpClass
  | [], _ => none
  | (nm, cls) :: rest, name => if name = nm then some cls else findClass rest name

/-- The kwargs-building loop of `create_from_zfp`:
`kwargs[attr] = func(d[attr])` for each schema attribute.  A missing key is an
uncaught `KeyError`, a parse failure an uncaught `ValueError`. -/
def decodeAll : List (String × AttrTy) → ZfpDict → Except String (List ZfpVal)
  | [], _ => .ok []
  | (attr, ty) :: rest, d =>
    match lookupZ d (.plain attr) with
    | none => .error (keyErrorMsg attr)
    | some v =>
      match decodeAttr ty v with
      | none => .error (valueErrorMsg v)
      | some a =>
        match decodeAll rest d with
        | .error e => .error e
        | .ok as => .ok (a :: as)

/-- `FFTermFactory.create_from_zfp`. -/
def create_from_zfp (name : String) (d : ZfpDict) : Except String FFTerm :=
  match findClass classMap name with
  | none => .error ("Invalid force field term: " ++ name)
  | some cls =>
    match decodeAll cls.schema d with
    | .error e => .error e
    | .ok vals =>
      match cls.ctor vals with
      | .error _ => .error ("Cannot init " ++ name ++ " with kwargs " ++ dictStr d)
      | .ok term => from_zfp_extra term d

/-- Specification-side predicate: the invariant of a parameter list built by
`add_parameter` — strictly increasing, positive multiplicities. -/
def ParamsOk (ps : List DihPara) : Prop :=
  List.Sorted (fun (a b : DihPara) => a.n < b.n) ps ∧ ∀ p ∈ ps, 1 ≤ p.n

instance : DecidablePred ParamsOk := fun ps => by
  unfold ParamsOk
  infer_instance

/-- The rounding that the ZFP round trip applies to one dihedral parameter. -/
def roundPara (p : DihPara) : DihPara := { phi := fmt1 p.phi, k := fmt4 p.k, n := p.n }

/-- Specification-side closeness: same multiplicity, `phi` within `0.05`,
`k` within `0.00005` (the declared formatting precision). -/
def paraClose (p q : DihPara) : Prop :=
  p.n = q.n ∧ |p.phi - q.phi| ≤ 1 / 20 ∧ |p.k - q.k| ≤ 1 / 20000

/-- `inp` occurs verbatim inside `msg` (substring as char-list infix). -/
def mentions (msg inp : String) : Prop := inp.data <:+: msg.data

instance (msg inp : String) : Decidable (mentions msg inp) := by
  unfold mentions
  infer_instance

/-- The OPLS phase pattern of the specification: `n=1 → phi=0`, `n=2 → phi=180`,
`n=3 → phi=0`, `n=4 → phi=180`, and any `n > 4` must carry `k=0`. -/
def oplsPhasePattern (p : DihPara) : Prop :=
  (p.n = 1 → p.phi = 0) ∧ (p.n = 2 → p.phi = 180) ∧ (p.n = 3 → p.phi = 0) ∧
  (p.n = 4 → p.phi = 180) ∧ (4 < p.n → p.k = 0)

/-- The four components of a canonical dihedral quadruple, as a list. -/
def quadList (q : String × String × String × String) : List String :=
  [q.1, q.2.1, q.2.2.1, q.2.2.2]

/-- The stricter pattern that `get_opls_parameters` actually enforces: every
multiplicity must be one of 1..4, with the matching phase. -/
def oplsStrict (p : DihPara) : Prop :=
  (p.n = 1 ∧ p.phi = 0) ∨ (p.n = 2 ∧ p.phi = 180) ∨ (p.n = 3 ∧ p.phi = 0) ∨
  (p.n = 4 ∧ p.phi = 180)

instance : DecidablePred oplsPhasePattern := fun p => by
  unfold oplsPhasePattern
  infer_instance

instance : DecidablePred oplsStrict := fun p => by
  unfold oplsStrict
  infer_instance

/-- The force constant stored for multiplicity `i`, defaulting to `0`. -/
def kOf (t : PeriodicDihedralTerm) (i : ℤ) : ℚ :=
  ((t.parameters.find? fun p => p.n == i).map DihPara.k).getD 0

deriving instance DecidableEq for Except

/-! ### Helper lemmas -/

theorem orName_idem (v nm : String) : orName (orName v nm) nm = orName v nm := by
  unfold orName
  by_cases h : v = "" <;> simp [h]

theorem sortPair_not_lt (a b : String) : ¬ (sortPair a b).2 < (sortPair a b).1 := by
  unfold sortPair
  by_cases h : b < a
  · simp only [if_pos h]
    exact not_lt_of_lt h
  · simp only [if_neg h]
    exact h

theorem sortPair_eq_of_not_lt (a b : String) (h : ¬ b < a) : sortPair a b = (a, b) := by
  simp [sortPair, h]

theorem sortPair_idem (a b : String) :
    sortPair (sortPair a b).1 (sortPair a b).2 = sortPair a b := by
  rw [sortPair_eq_of_not_lt _ _ (sortPair_not_lt a b)]

theorem sortPair_comm (a b : String) : sortPair a b = sortPair b a := by
  unfold sortPair
  rcases lt_trichotomy a b with h | h | h
  · simp [h, not_lt_of_lt h]
  · simp [h]
  · simp [h, not_lt_of_lt h]

theorem sortPair_fst_le (a b : String) : (sortPair a b).1 ≤ (sortPair a b).2 :=
  le_of_not_lt (sortPair_not_lt a b)

theorem sortPair_eq_self_iff (a b : String) : (sortPair a b).1 = (sortPair a b).2 ↔ a = b := by
  unfold sortPair
  by_cases h : b < a
  · simp only [if_pos h]
    exact eq_comm
  · simp only [if_neg h]

theorem tupLt_irrefl (l : List String) : tupLt l l = false := by
  induction l with
  | nil => rfl
  | cons a as ih => simp [tupLt, ih]

theorem tupLt_asymm {l m : List String} (h : tupLt l m = true) : tupLt m l = false := by
  induction l generalizing m with
  | nil =>
    cases m with
    | nil => simp [tupLt] at h
    | cons b bs => rfl
  | cons a as ih =>
    cases m with
    | nil => simp [tupLt] at h
    | cons b bs =>
      simp only [tupLt, Bool.or_eq_true, Bool.and_eq_true, decide_eq_true_eq] at h
      rcases h with hlt | ⟨he, ht⟩
      · have h1 : ¬ b < a := not_lt_of_lt hlt
        have h2 : b ≠ a := ne_of_gt hlt
        simp [tupLt, h1, h2]
      · subst he
        simp [tupLt, ih ht, lt_irrefl]

theorem count_pair_comm (x a b : String) : List.count x [a, b] = List.count x [b, a] := by
  simp [List.count_cons]
  omega

theorem dihedralCanon_idem {t1 t2 t3 t4 a1 a2 a3 a4 : String}
    (h : dihedralCanon t1 t2 t3 t4 = .ok (a1, a2, a3, a4)) :
    dihedralCanon a1 a2 a3 a4 = .ok (a1, a2, a3, a4) := by
  unfold dihedralCanon at h ⊢
  by_cases hc : t2 = "*" ∨ t3 = "*"
  · rw [if_pos hc] at h
    exact absurd h (by simp)
  rw [if_neg hc] at h
  push_neg at hc
  obtain ⟨hc2, hc3⟩ := hc
  by_cases hw : [t1, t4].count "*" = 0 ∨ [t1, t4].count "*" = 2
  · rw [if_pos hw] at h
    have hcount : [t4, t1].count "*" = 0 ∨ [t4, t1].count "*" = 2 := by
      rw [count_pair_comm]
      exact hw
    by_cases ht : tupLt [t4, t3, t2, t1] [t1, t2, t3, t4] = true
    · rw [if_pos ht] at h
      simp only [Except.ok.injEq, Prod.mk.injEq] at h
      obtain ⟨rfl, rfl, rfl, rfl⟩ := h
      rw [if_neg (show ¬(t3 = "*" ∨ t2 = "*") by simp [hc2, hc3]), if_pos hcount,
        if_neg (by simp [tupLt_asymm ht])]
    · rw [if_neg ht] at h
      simp only [Except.ok.injEq, Prod.mk.injEq] at h
      obtain ⟨rfl, rfl, rfl, rfl⟩ := h
      rw [if_neg (show ¬(t2 = "*" ∨ t3 = "*") by simp [hc2, hc3]), if_pos hw, if_neg ht]
  · rw [if_neg hw] at h
    by_cases h1 : t1 = "*"
    · rw [if_pos h1] at h
      simp only [Except.ok.injEq, Prod.mk.injEq] at h
      obtain ⟨rfl, rfl, rfl, rfl⟩ := h
      subst h1
      have h4 : t4 ≠ "*" := by
        intro hx
        exact hw (Or.inr (by simp [hx, List.count_cons]))
      have hcount : ¬([t4, "*"].count "*" = 0 ∨ [t4, "*"].count "*" = 2) := by
        simp [List.count_cons, h4]
      rw [if_neg (show ¬(t3 = "*" ∨ t2 = "*") by simp [hc2, hc3]), if_neg hcount,
        if_neg h4]
    · rw [if_neg h1] at h
      simp only [Except.ok.injEq, Prod.mk.injEq] at h
      obtain ⟨rfl, rfl, rfl, rfl⟩ := h
      rw [if_neg (show ¬(t2 = "*" ∨ t3 = "*") by simp [hc2, hc3]), if_neg hw, if_neg h1]

theorem getD3 (l : List String) (h : l.length = 3) :
    [l.getD 0 "*", l.getD 1 "*", l.getD 2 "*"] = l := by
  rcases l with _ | ⟨a, _ | ⟨b, _ | ⟨c, _ | ⟨d, l⟩⟩⟩⟩ <;> simp_all

theorem improperSides_length (t2 t3 t4 : String) : (improperSides t2 t3 t4).length = 3 := by
  have hf : (List.filter (fun t => t ≠ "*") [t2, t3, t4]).length ≤ 3 :=
    List.length_filter_le _ _
  simp only [improperSides, List.length_append, List.length_insertionSort,
    List.length_replicate]
  omega

theorem improperSides_of_canonical (s : List String)
    (hs : List.Sorted (fun (a b : String) => a ≤ b) s)
    (hmem : ∀ x ∈ s, x ≠ "*") (a b c : String)
    (h : [a, b, c] = s ++ List.replicate (3 - s.length) "*") :
    improperSides a b c = [a, b, c] := by
  have h1 : List.filter (fun t => t ≠ "*") s = s :=
    List.filter_eq_self.mpr (by
      intro x hx
      simpa using hmem x hx)
  have h2 : List.filter (fun t => t ≠ "*") (List.replicate (3 - s.length) "*") = [] := by
    rw [List.filter_eq_nil_iff]
    intro x hx
    simp [List.eq_of_mem_replicate hx]
  have hfil : List.filter (fun t => t ≠ "*") [a, b, c] = s := by
    rw [h, List.filter_append, h1, h2, List.append_nil]
  have hrfl : improperSides a b c =
      List.insertionSort (fun (a b : String) => a ≤ b)
        (List.filter (fun t => t ≠ "*") [a, b, c]) ++
      List.replicate (3 - (List.insertionSort (fun (a b : String) => a ≤ b)
        (List.filter (fun t => t ≠ "*") [a, b, c])).length) "*" := rfl
  rw [hrfl, hfil, hs.insertionSort_eq, ← h]

theorem improperSides_idem (t2 t3 t4 : String) :
    improperSides ((improperSides t2 t3 t4).getD 0 "*")
      ((improperSides t2 t3 t4).getD 1 "*")
      ((improperSides t2 t3 t4).getD 2 "*") = improperSides t2 t3 t4 := by
  have hgd := getD3 _ (improperSides_length t2 t3 t4)
  have hs : List.Sorted (fun (a b : String) => a ≤ b)
      (List.insertionSort (fun (a b : String) => a ≤ b)
        (List.filter (fun t => t ≠ "*") [t2, t3, t4])) :=
    List.sorted_insertionSort _ _
  have hmem : ∀ x ∈ List.insertionSort (fun (a b : String) => a ≤ b)
      (List.filter (fun t => t ≠ "*") [t2, t3, t4]), x ≠ "*" := by
    intro x hx
    have hx' := (List.mem_insertionSort _).mp hx
    have := List.of_mem_filter hx'
    simpa using this
  have hrepr : improperSides t2 t3 t4 =
      List.insertionSort (fun (a b : String) => a ≤ b)
        (List.filter (fun t => t ≠ "*") [t2, t3, t4]) ++
      List.replicate (3 - (List.insertionSort (fun (a b : String) => a ≤ b)
        (List.filter (fun t => t ≠ "*") [t2, t3, t4])).length) "*" := rfl
  have := improperSides_of_canonical _ hs hmem
    ((improperSides t2 t3 t4).getD 0 "*") ((improperSides t2 t3 t4).getD 1 "*")
    ((improperSides t2 t3 t4).getD 2 "*") (by rw [hgd, hrepr])
  rw [this, hgd]

theorem improperCanon_idem {t1 t2 t3 t4 a1 a2 a3 a4 : String}
    (h : improperCanon t1 t2 t3 t4 = .ok (a1, a2, a3, a4)) :
    improperCanon a1 a2 a3 a4 = .ok (a1, a2, a3, a4) := by
  unfold improperCanon at h ⊢
  by_cases hc : t1 = "*"
  · rw [if_pos hc] at h
    exact absurd h (by simp)
  rw [if_neg hc] at h
  simp only [Except.ok.injEq, Prod.mk.injEq] at h
  obtain ⟨rfl, rfl, rfl, rfl⟩ := h
  rw [if_neg hc]
  simp only [improperSides_idem]

theorem chargeIncrement_init_idem {t1 t2 : String} {v : ℚ} {t : ChargeIncrementTerm}
    (h : ChargeIncrementTerm.init t1 t2 v = .ok t) :
    ChargeIncrementTerm.init t.type1 t.type2 t.value = .ok t := by
  unfold ChargeIncrementTerm.init at h ⊢
  by_cases hz : t1 = t2 ∧ v ≠ 0
  · rw [if_pos hz] at h
    exact absurd h (by simp)
  rw [if_neg hz] at h
  simp only [Except.ok.injEq] at h
  subst h
  simp only
  have hval : (if (sortPair t1 t2).1 = (sortPair t1 t2).2 then
      ((if (sortPair t1 t2).1 = t1 then v else -v) ≠ 0 → False) else True) := by
    split
    · next he =>
      have ht : t1 = t2 := (sortPair_eq_self_iff t1 t2).mp he
      have hv : v = 0 := by
        by_contra hv
        exact hz ⟨ht, hv⟩
      intro hne
      apply hne
      rw [hv]
      split <;> simp
    · trivial
  rw [if_neg ?hno]
  case hno =>
    rintro ⟨he, hne⟩
    rw [if_pos he] at hval
    exact hval hne
  rw [sortPair_eq_of_not_lt _ _ (sortPair_not_lt t1 t2)]
  simp

theorem create_atomType (t : AtomType) :
    create_from_zfp "AtomType" (to_zfp (.atomType t)) =
      .ok (.atomType (AtomType.init t.name t.mass t.charge t.eqt_vdw t.eqt_q_inc
        t.eqt_bond t.eqt_ang_c t.eqt_ang_s t.eqt_dih_c t.eqt_dih_s t.eqt_imp_c
        t.eqt_imp_s t.eqt_polar)) := rfl

theorem create_lj126 (t : LJ126Term) :
    create_from_zfp "LJ126Term" (to_zfp (.lj126 t)) =
      .ok (.lj126 (LJ126Term.init t.type1 t.type2 t.epsilon t.sigma)) := rfl

theorem create_mie (t : MieTerm) :
    create_from_zfp "MieTerm" (to_zfp (.mie t)) =
      .ok (.mie (MieTerm.init t.type1 t.type2 t.epsilon t.sigma t.repulsion
        t.attraction)) := rfl

theorem create_harmonicBond (t : HarmonicBondTerm) :
    create_from_zfp "HarmonicBondTerm" (to_zfp (.harmonicBond t)) =
      .ok (.harmonicBond (HarmonicBondTerm.init t.type1 t.type2 t.length t.k
        t.fixed)) := rfl

theorem create_harmonicAngle (t : HarmonicAngleTerm) :
    create_from_zfp "HarmonicAngleTerm" (to_zfp (.harmonicAngle t)) =
      .ok (.harmonicAngle (HarmonicAngleTerm.init t.type1 t.type2 t.type3 t.theta
        t.k t.fixed)) := rfl

theorem create_sdkAngle (t : SDKAngleTerm) :
    create_from_zfp "SDKAngleTerm" (to_zfp (.sdkAngle t)) =
      .ok (.sdkAngle (SDKAngleTerm.init t.type1 t.type2 t.type3 t.theta t.k)) := rfl

theorem create_drude (t : DrudeTerm) :
    create_from_zfp "DrudeTerm" (to_zfp (.drude t)) =
      .ok (.drude (DrudeTerm.init t.type t.alpha t.thole t.k t.mass
        t.merge_alpha_H)) := rfl

theorem create_chargeIncrement (t : ChargeIncrementTerm) :
    create_from_zfp "ChargeIncrementTerm" (to_zfp (.chargeIncrement t)) =
      (match ChargeIncrementTerm.init t.type1 t.type2 t.value with
       | .error _ => .error ("Cannot init ChargeIncrementTerm with kwargs " ++
           dictStr (to_zfp (.chargeIncrement t)))
       | .ok v => .ok (.chargeIncrement v)) := by
  have hdec : decodeAll chargeIncrementClass.schema (to_zfp (.chargeIncrement t)) =
      .ok [.s t.type1, .s t.type2, .q t.value] := rfl
  cases hi : ChargeIncrementTerm.init t.type1 t.type2 t.value with
  | error e =>
    have hc : chargeIncrementClass.ctor [.s t.type1, .s t.type2, .q t.value] =
        .error e := by
      simp [chargeIncrementClass, hi]
    simp [create_from_zfp, findClass, classMap, hdec, hc]
  | ok v =>
    have hc : chargeIncrementClass.ctor [.s t.type1, .s t.type2, .q t.value] =
        .ok (.chargeIncrement v) := by
      simp [chargeIncrementClass, hi]
    simp [create_from_zfp, findClass, classMap, hdec, hc, from_zfp_extra]

theorem create_oplsImproper (t : OplsImproperTerm) :
    create_from_zfp "OplsImproperTerm" (to_zfp (.oplsImproper t)) =
      (match OplsImproperTerm.init t.type1 t.type2 t.type3 t.type4 t.k with
       | .error _ => .error ("Cannot init OplsImproperTerm with kwargs " ++
           dictStr (to_zfp (.oplsImproper t)))
       | .ok v => .ok (.oplsImproper v)) := by
  have hdec : decodeAll oplsImproperClass.schema (to_zfp (.oplsImproper t)) =
      .ok [.s t.type1, .s t.type2, .s t.type3, .s t.type4, .q t.k] := rfl
  cases hi : OplsImproperTerm.init t.type1 t.type2 t.type3 t.type4 t.k with
  | error e =>
    have hc : oplsImproperClass.ctor [.s t.type1, .s t.type2, .s t.type3, .s t.type4,
        .q t.k] = .error e := by
      simp [oplsImproperClass, hi]
    simp [create_from_zfp, findClass, classMap, hdec, hc]
  | ok v =>
    have hc : oplsImproperClass.ctor [.s t.type1, .s t.type2, .s t.type3, .s t.type4,
        .q t.k] = .ok (.oplsImproper v) := by
      simp [oplsImproperClass, hi]
    simp [create_from_zfp, findClass, classMap, hdec, hc, from_zfp_extra]

theorem create_harmonicImproper (t : HarmonicImproperTerm) :
    create_from_zfp "HarmonicImproperTerm" (to_zfp (.harmonicImproper t)) =
      (match HarmonicImproperTerm.init t.type1 t.type2 t.type3 t.type4 t.phi t.k with
       | .error _ => .error ("Cannot init HarmonicImproperTerm with kwargs " ++
           dictStr (to_zfp (.harmonicImproper t)))
       | .ok v => .ok (.harmonicImproper v)) := by
  have hdec : decodeAll harmonicImproperClass.schema (to_zfp (.harmonicImproper t)) =
      .ok [.s t.type1, .s t.type2, .s t.type3, .s t.type4, .q t.phi, .q t.k] := rfl
  cases hi : HarmonicImproperTerm.init t.type1 t.type2 t.type3 t.type4 t.phi t.k with
  | error e =>
    have hc : harmonicImproperClass.ctor [.s t.type1, .s t.type2, .s t.type3,
        .s t.type4, .q t.phi, .q t.k] = .error e := by
      simp [harmonicImproperClass, hi]
    simp [create_from_zfp, findClass, classMap, hdec, hc]
  | ok v =>
    have hc : harmonicImproperClass.ctor [.s t.type1, .s t.type2, .s t.type3,
        .s t.type4, .q t.phi, .q t.k] = .ok (.harmonicImproper v) := by
      simp [harmonicImproperClass, hi]
    simp [create_from_zfp, findClass, classMap, hdec, hc, from_zfp_extra]

theorem create_pdt (t : PeriodicDihedralTerm) :
    create_from_zfp "PeriodicDihedralTerm" (to_zfp (.periodicDihedral t)) =
      (match PeriodicDihedralTerm.init t.type1 t.type2 t.type3 t.type4 with
       | .error _ => .error ("Cannot init PeriodicDihedralTerm with kwargs " ++
           dictStr (to_zfp (.periodicDihedral t)))
       | .ok t0 =>
         match dihLoop (to_zfp (.periodicDihedral t)) (to_zfp (.periodicDihedral t)) t0 with
         | .error e => .error e
         | .ok p' => .ok (.periodicDihedral p')) := by
  have hdec : decodeAll periodicDihedralClass.schema (to_zfp (.periodicDihedral t)) =
      .ok [.s t.type1, .s t.type2, .s t.type3, .s t.type4] := rfl
  cases hi : PeriodicDihedralTerm.init t.type1 t.type2 t.type3 t.type4 with
  | error e =>
    have hc : periodicDihedralClass.ctor [.s t.type1, .s t.type2, .s t.type3,
        .s t.type4] = .error e := by
      simp [periodicDihedralClass, hi]
    simp [create_from_zfp, findClass, classMap, hdec, hc]
  | ok t0 =>
    have hc : periodicDihedralClass.ctor [.s t.type1, .s t.type2, .s t.type3,
        .s t.type4] = .ok (.periodicDihedral t0) := by
      simp [periodicDihedralClass, hi]
    cases hl : dihLoop (to_zfp (.periodicDihedral t)) (to_zfp (.periodicDihedral t)) t0 with
    | error e => simp [create_from_zfp, findClass, classMap, hdec, hc, from_zfp_extra, hl]
    | ok p' => simp [create_from_zfp, findClass, classMap, hdec, hc, from_zfp_extra, hl]

theorem atomType_init_idem (nm : String) (mass charge : ℚ)
    (e1 e2 e3 e4 e5 e6 e7 e8 e9 e10 : String) :
    AtomType.init (AtomType.init nm mass charge e1 e2 e3 e4 e5 e6 e7 e8 e9 e10).name
      mass charge
      (AtomType.init nm mass charge e1 e2 e3 e4 e5 e6 e7 e8 e9 e10).eqt_vdw
      (AtomType.init nm mass charge e1 e2 e3 e4 e5 e6 e7 e8 e9 e10).eqt_q_inc
      (AtomType.init nm mass charge e1 e2 e3 e4 e5 e6 e7 e8 e9 e10).eqt_bond
      (AtomType.init nm mass charge e1 e2 e3 e4 e5 e6 e7 e8 e9 e10).eqt_ang_c
      (AtomType.init nm mass charge e1 e2 e3 e4 e5 e6 e7 e8 e9 e10).eqt_ang_s
      (AtomType.init nm mass charge e1 e2 e3 e4 e5 e6 e7 e8 e9 e10).eqt_dih_c
      (AtomType.init nm mass charge e1 e2 e3 e4 e5 e6 e7 e8 e9 e10).eqt_dih_s
      (AtomType.init nm mass charge e1 e2 e3 e4 e5 e6 e7 e8 e9 e10).eqt_imp_c
      (AtomType.init nm mass charge e1 e2 e3 e4 e5 e6 e7 e8 e9 e10).eqt_imp_s
      (AtomType.init nm mass charge e1 e2 e3 e4 e5 e6 e7 e8 e9 e10).eqt_polar =
    AtomType.init nm mass charge e1 e2 e3 e4 e5 e6 e7 e8 e9 e10 := by
  simp [AtomType.init, orName_idem]

theorem vdw_init_idem (a b : String) :
    VdwTerm.init (VdwTerm.init a b).type1 (VdwTerm.init a b).type2 = VdwTerm.init a b := by
  simp [VdwTerm.init, sortPair_idem]

theorem bond_init_idem (a b : String) (len : ℚ) (fx : Bool) :
    BondTerm.init (BondTerm.init a b len fx).type1 (BondTerm.init a b len fx).type2 len fx =
      BondTerm.init a b len fx := by
  simp [BondTerm.init, sortPair_idem]

theorem angle_init_idem (a b c : String) (th : ℚ) (fx : Bool) :
    AngleTerm.init (AngleTerm.init a b c th fx).type1 (AngleTerm.init a b c th fx).type2
      (AngleTerm.init a b c th fx).type3 th fx = AngleTerm.init a b c th fx := by
  simp [AngleTerm.init, sortPair_idem]

theorem lj126_init_idem (a b : String) (e s : ℚ) :
    LJ126Term.init (LJ126Term.init a b e s).type1 (LJ126Term.init a b e s).type2 e s =
      LJ126Term.init a b e s := by
  simp [LJ126Term.init, sortPair_idem]

theorem mie_init_idem (a b : String) (e s rep att : ℚ) :
    MieTerm.init (MieTerm.init a b e s rep att).type1 (MieTerm.init a b e s rep att).type2
      e s rep att = MieTerm.init a b e s rep att := by
  simp [MieTerm.init, sortPair_idem]

theorem harmonicBond_init_idem (a b : String) (len k : ℚ) (fx : Bool) :
    HarmonicBondTerm.init (HarmonicBondTerm.init a b len k fx).type1
      (HarmonicBondTerm.init a b len k fx).type2 len k fx =
      HarmonicBondTerm.init a b len k fx := by
  simp [HarmonicBondTerm.init, sortPair_idem]

theorem harmonicAngle_init_idem (a b c : String) (th k : ℚ) (fx : Bool) :
    HarmonicAngleTerm.init (HarmonicAngleTerm.init a b c th k fx).type1
      (HarmonicAngleTerm.init a b c th k fx).type2
      (HarmonicAngleTerm.init a b c th k fx).type3 th k fx =
      HarmonicAngleTerm.init a b c th k fx := by
  simp [HarmonicAngleTerm.init, sortPair_idem]

theorem sdkAngle_init_idem (a b c : String) (th k : ℚ) :
    SDKAngleTerm.init (SDKAngleTerm.init a b c th k).type1
      (SDKAngleTerm.init a b c th k).type2
      (SDKAngleTerm.init a b c th k).type3 th k = SDKAngleTerm.init a b c th k := by
  simp [SDKAngleTerm.init, sortPair_idem]

theorem drude_init_idem (ty : String) (alpha thole k mass mrg : ℚ) :
    DrudeTerm.init (DrudeTerm.init ty alpha thole k mass mrg).type alpha thole k mass mrg =
      DrudeTerm.init ty alpha thole k mass mrg := rfl

theorem dihedral_init_idem {t1 t2 t3 t4 : String} {t : DihedralTerm}
    (h : DihedralTerm.init t1 t2 t3 t4 = .ok t) :
    DihedralTerm.init t.type1 t.type2 t.type3 t.type4 = .ok t := by
  unfold DihedralTerm.init at h ⊢
  cases hc : dihedralCanon t1 t2 t3 t4 with
  | error e => rw [hc] at h; exact absurd h (by simp)
  | ok q =>
    obtain ⟨a1, a2, a3, a4⟩ := q
    rw [hc] at h
    simp only [Except.ok.injEq] at h
    subst h
    simp only
    rw [dihedralCanon_idem hc]

theorem improper_init_idem {t1 t2 t3 t4 : String} {t : ImproperTerm}
    (h : ImproperTerm.init t1 t2 t3 t4 = .ok t) :
    ImproperTerm.init t.type1 t.type2 t.type3 t.type4 = .ok t := by
  unfold ImproperTerm.init at h ⊢
  cases hc : improperCanon t1 t2 t3 t4 with
  | error e => rw [hc] at h; exact absurd h (by simp)
  | ok q =>
    obtain ⟨a1, a2, a3, a4⟩ := q
    rw [hc] at h
    simp only [Except.ok.injEq] at h
    subst h
    simp only
    rw [improperCanon_idem hc]

theorem pdt_init_idem {t1 t2 t3 t4 : String} {t : PeriodicDihedralTerm}
    (h : PeriodicDihedralTerm.init t1 t2 t3 t4 = .ok t) :
    PeriodicDihedralTerm.init t.type1 t.type2 t.type3 t.type4 = .ok t := by
  unfold PeriodicDihedralTerm.init at h ⊢
  cases hc : dihedralCanon t1 t2 t3 t4 with
  | error e => rw [hc] at h; exact absurd h (by simp)
  | ok q =>
    obtain ⟨a1, a2, a3, a4⟩ := q
    rw [hc] at h
    simp only [Except.ok.injEq] at h
    subst h
    simp only
    rw [dihedralCanon_idem hc]

theorem oplsImproper_init_idem {t1 t2 t3 t4 : String} {k : ℚ} {t : OplsImproperTerm}
    (h : OplsImproperTerm.init t1 t2 t3 t4 k = .ok t) :
    OplsImproperTerm.init t.type1 t.type2 t.type3 t.type4 t.k = .ok t := by
  unfold OplsImproperTerm.init at h ⊢
  cases hc : improperCanon t1 t2 t3 t4 with
  | error e => rw [hc] at h; exact absurd h (by simp)
  | ok q =>
    obtain ⟨a1, a2, a3, a4⟩ := q
    rw [hc] at h
    simp only [Except.ok.injEq] at h
    subst h
    simp only
    rw [improperCanon_idem hc]

theorem harmonicImproper_init_idem {t1 t2 t3 t4 : String} {phi k : ℚ}
    {t : HarmonicImproperTerm}
    (h : HarmonicImproperTerm.init t1 t2 t3 t4 phi k = .ok t) :
    HarmonicImproperTerm.init t.type1 t.type2 t.type3 t.type4 t.phi t.k = .ok t := by
  unfold HarmonicImproperTerm.init at h ⊢
  cases hc : improperCanon t1 t2 t3 t4 with
  | error e => rw [hc] at h; exact absurd h (by simp)
  | ok q =>
    obtain ⟨a1, a2, a3, a4⟩ := q
    rw [hc] at h
    simp only [Except.ok.injEq] at h
    subst h
    simp only
    rw [improperCanon_idem hc]

theorem add_parameter_append (t : PeriodicDihedralTerm) (phi k : ℚ) (n : ℤ)
    (h1 : 1 ≤ n) (h2 : ∀ p ∈ t.parameters, p.n < n)
    (hs : List.Sorted (fun (a b : DihPara) => a.n ≤ b.n) t.parameters) :
    t.add_parameter phi k n =
      .ok { t with parameters := t.parameters ++ [{ phi := phi, k := k, n := n }] } := by
  unfold PeriodicDihedralTerm.add_parameter
  rw [if_neg (by omega : ¬ n < 1)]
  have hany : ¬ (t.parameters.any (fun p => p.n == n) = true) := by
    simp only [List.any_eq_true, beq_iff_eq, not_exists]
    intro p
    rintro ⟨hp, he⟩
    exact absurd he (by have := h2 p hp; omega)
  rw [if_neg hany]
  have hsorted : List.Sorted (fun (a b : DihPara) => a.n ≤ b.n)
      (t.parameters ++ [{ phi := phi, k := k, n := n }]) := by
    rw [List.Sorted, List.pairwise_append]
    refine ⟨hs, by simp, ?_⟩
    intro p hp q hq
    simp only [List.mem_singleton] at hq
    subst hq
    exact le_of_lt (h2 p hp)
  rw [hsorted.insertionSort_eq]

theorem lookup_dihExtras_phi {ps : List DihPara} {p : DihPara} (hmem : p ∈ ps)
    (hs : List.Sorted (fun (a b : DihPara) => a.n < b.n) ps) :
    lookupZ (dihExtras ps) (.phiK p.n) = some (.q (fmt1 p.phi)) := by
  induction ps with
  | nil => simp at hmem
  | cons q rest ih =>
    rcases List.mem_cons.mp hmem with rfl | hmem'
    · simp [dihExtras, lookupZ]
    · have hne : p.n ≠ q.n := by
        have := List.rel_of_sorted_cons hs p hmem'
        omega
      simp only [dihExtras, lookupZ]
      rw [if_neg (by simp [hne]), if_neg (by simp)]
      exact ih hmem' hs.of_cons

theorem lookup_dihExtras_k {ps : List DihPara} {p : DihPara} (hmem : p ∈ ps)
    (hs : List.Sorted (fun (a b : DihPara) => a.n < b.n) ps) :
    lookupZ (dihExtras ps) (.kK p.n) = some (.q (fmt4 p.k)) := by
  induction ps with
  | nil => simp at hmem
  | cons q rest ih =>
    rcases List.mem_cons.mp hmem with rfl | hmem'
    · simp [dihExtras, lookupZ]
    · have hne : p.n ≠ q.n := by
        have := List.rel_of_sorted_cons hs p hmem'
        omega
      simp only [dihExtras, lookupZ]
      rw [if_neg (by simp), if_neg (by simp [hne])]
      exact ih hmem' hs.of_cons

theorem getFloat_phi (t : PeriodicDihedralTerm) {p : DihPara} (hmem : p ∈ t.parameters)
    (hs : List.Sorted (fun (a b : DihPara) => a.n < b.n) t.parameters) :
    getFloat (to_zfp (.periodicDihedral t)) (.phiK p.n) = .ok (fmt1 p.phi) := by
  unfold getFloat
  rw [show lookupZ (to_zfp (.periodicDihedral t)) (.phiK p.n) =
    lookupZ (dihExtras t.parameters) (.phiK p.n) from rfl]
  rw [lookup_dihExtras_phi hmem hs]

theorem getFloat_k (t : PeriodicDihedralTerm) {p : DihPara} (hmem : p ∈ t.parameters)
    (hs : List.Sorted (fun (a b : DihPara) => a.n < b.n) t.parameters) :
    getFloat (to_zfp (.periodicDihedral t)) (.kK p.n) = .ok (fmt4 p.k) := by
  unfold getFloat
  rw [show lookupZ (to_zfp (.periodicDihedral t)) (.kK p.n) =
    lookupZ (dihExtras t.parameters) (.kK p.n) from rfl]
  rw [lookup_dihExtras_k hmem hs]

theorem dihLoop_extras (d : ZfpDict) (todo : List DihPara) (t : PeriodicDihedralTerm)
    (hget : ∀ p ∈ todo, getFloat d (.phiK p.n) = .ok (fmt1 p.phi) ∧
      getFloat d (.kK p.n) = .ok (fmt4 p.k))
    (hsorted : List.Sorted (fun (a b : DihPara) => a.n < b.n) todo)
    (hpos : ∀ p ∈ todo, 1 ≤ p.n)
    (hlt : ∀ p ∈ t.parameters, ∀ q ∈ todo, p.n < q.n)
    (hts : List.Sorted (fun (a b : DihPara) => a.n ≤ b.n) t.parameters) :
    dihLoop d (dihExtras todo) t =
      .ok { t with parameters := t.parameters ++ todo.map roundPara } := by
  induction todo generalizing t with
  | nil => simp [dihExtras, dihLoop]
  | cons p rest ih =>
    obtain ⟨hphi, hk⟩ := hget p (by simp)
    have hadd := add_parameter_append t (fmt1 p.phi) (fmt4 p.k) p.n (hpos p (by simp))
      (fun q hq => hlt q hq p (by simp)) hts
    simp only [dihExtras, dihLoop, hphi, hk, hadd]
    have ih' := ih
      (fun q hq => hget q (List.mem_cons_of_mem _ hq))
      hsorted.of_cons
      (fun q hq => hpos q (List.mem_cons_of_mem _ hq))
      (t := { t with parameters := t.parameters ++ [{ phi := fmt1 p.phi, k := fmt4 p.k, n := p.n }] })
      (by
        intro x hx q hq
        simp only [List.mem_append, List.mem_singleton] at hx
        rcases hx with hx | rfl
        · exact hlt x hx q (List.mem_cons_of_mem _ hq)
        · exact List.rel_of_sorted_cons hsorted q hq)
      (by
        rw [List.Sorted, List.pairwise_append]
        refine ⟨hts, by simp, ?_⟩
        intro x hx q hq
        simp only [List.mem_singleton] at hq
        subst hq
        exact le_of_lt (hlt x hx p (by simp)))
    rw [ih']
    simp [roundPara]

theorem pdt_roundtrip (t : PeriodicDihedralTerm)
    (hcanon : dihedralCanon t.type1 t.type2 t.type3 t.type4 =
      .ok (t.type1, t.type2, t.type3, t.type4))
    (hok : ParamsOk t.parameters) :
    create_from_zfp "PeriodicDihedralTerm" (to_zfp (.periodicDihedral t)) =
      .ok (.periodicDihedral { t with parameters := t.parameters.map roundPara }) := by
  obtain ⟨hsorted, hpos⟩ := hok
  have hinit : PeriodicDihedralTerm.init t.type1 t.type2 t.type3 t.type4 =
      .ok { type1 := t.type1, type2 := t.type2, type3 := t.type3, type4 := t.type4,
            parameters := [] } := by
    unfold PeriodicDihedralTerm.init
    rw [hcanon]
  have hskip : dihLoop (to_zfp (.periodicDihedral t)) (to_zfp (.periodicDihedral t))
      { type1 := t.type1, type2 := t.type2, type3 := t.type3, type4 := t.type4,
        parameters := [] } =
      dihLoop (to_zfp (.periodicDihedral t)) (dihExtras t.parameters)
      { type1 := t.type1, type2 := t.type2, type3 := t.type3, type4 := t.type4,
        parameters := [] } := rfl
  have hloop := dihLoop_extras (to_zfp (.periodicDihedral t)) t.parameters
    { type1 := t.type1, type2 := t.type2, type3 := t.type3, type4 := t.type4,
      parameters := [] }
    (fun p hp => ⟨getFloat_phi t hp hsorted, getFloat_k t hp hsorted⟩)
    hsorted hpos (by simp) (by simp)
  rw [create_pdt t, hinit]
  simp only [hskip, hloop]
  simp

theorem fmt1_close (x : ℚ) : |fmt1 x - x| ≤ 1 / 20 := by
  unfold fmt1
  have h := abs_sub_round (x * 10)
  rw [abs_sub_comm] at h
  have h2 : ((round (x * 10) : ℤ) : ℚ) / 10 - x = (((round (x * 10) : ℤ) : ℚ) - x * 10) / 10 := by
    ring
  rw [h2, abs_div, abs_of_pos (show (0:ℚ) < 10 by norm_num)]
  linarith

theorem fmt4_close (x : ℚ) : |fmt4 x - x| ≤ 1 / 20000 := by
  unfold fmt4
  have h := abs_sub_round (x * 10000)
  rw [abs_sub_comm] at h
  have h2 : ((round (x * 10000) : ℤ) : ℚ) / 10000 - x =
      (((round (x * 10000) : ℤ) : ℚ) - x * 10000) / 10000 := by
    ring
  rw [h2, abs_div, abs_of_pos (show (0:ℚ) < 10000 by norm_num)]
  linarith

theorem paraClose_roundPara (p : DihPara) : paraClose (roundPara p) p :=
  ⟨rfl, fmt1_close p.phi, fmt4_close p.k⟩

theorem forall2_roundPara (ps : List DihPara) :
    List.Forall₂ paraClose (ps.map roundPara) ps := by
  induction ps with
  | nil => constructor
  | cons p rest ih =>
    exact List.Forall₂.cons (paraClose_roundPara p) ih

theorem add_parameter_paramsOk {t : PeriodicDihedralTerm} {phi k : ℚ} {n : ℤ}
    {t' : PeriodicDihedralTerm} (hok : ParamsOk t.parameters)
    (h : t.add_parameter phi k n = .ok t') : ParamsOk t'.parameters := by
  obtain ⟨hs, hpos⟩ := hok
  unfold PeriodicDihedralTerm.add_parameter at h
  by_cases h1 : n < 1
  · rw [if_pos h1] at h
    exact absurd h (by simp)
  rw [if_neg h1] at h
  by_cases h2 : t.parameters.any (fun p => p.n == n) = true
  · rw [if_pos h2] at h
    exact absurd h (by simp)
  rw [if_neg h2] at h
  simp only [Except.ok.injEq] at h
  subst h
  simp only
  haveI : IsTotal DihPara (fun a b => a.n ≤ b.n) := ⟨fun a b => le_total a.n b.n⟩
  haveI : IsTrans DihPara (fun a b => a.n ≤ b.n) := ⟨fun a b c hab hbc => le_trans hab hbc⟩
  have hfresh : ∀ p ∈ t.parameters, p.n ≠ n := by
    intro p hp
    simp only [List.any_eq_true, beq_iff_eq, not_exists] at h2
    intro he
    exact h2 p ⟨hp, he⟩
  have hperm : List.Perm
      (List.insertionSort (fun (a b : DihPara) => a.n ≤ b.n)
        (t.parameters ++ [{ phi := phi, k := k, n := n }]))
      (t.parameters ++ [{ phi := phi, k := k, n := n }]) :=
    List.perm_insertionSort _ _
  constructor
  · have hle : List.Sorted (fun (a b : DihPara) => a.n ≤ b.n)
        (List.insertionSort (fun (a b : DihPara) => a.n ≤ b.n)
          (t.parameters ++ [{ phi := phi, k := k, n := n }])) :=
      List.sorted_insertionSort _ _
    have hnd0 : ((t.parameters ++ [({ phi := phi, k := k, n := n } : DihPara)]).map
        DihPara.n).Nodup := by
      rw [List.map_append, List.nodup_append]
      refine ⟨?_, by simp, ?_⟩
      · have : (t.parameters.map DihPara.n).Pairwise (· < ·) :=
          List.pairwise_map.mpr hs
        exact this.imp ne_of_lt
      · intro x hx hy
        simp only [List.map_singleton, List.mem_singleton] at hy
        subst hy
        obtain ⟨p, hp, he⟩ := List.mem_map.mp hx
        exact hfresh p hp he
    have hnd : ((List.insertionSort (fun (a b : DihPara) => a.n ≤ b.n)
        (t.parameters ++ [{ phi := phi, k := k, n := n }])).map DihPara.n).Nodup :=
      ((hperm.map DihPara.n).nodup_iff).mpr hnd0
    have hne : (List.insertionSort (fun (a b : DihPara) => a.n ≤ b.n)
        (t.parameters ++ [{ phi := phi, k := k, n := n }])).Pairwise
        (fun a b => a.n ≠ b.n) :=
      List.pairwise_map.mp hnd
    exact (hle.and hne).imp fun hab => lt_of_le_of_ne hab.1 hab.2
  · intro p hp
    have hp' := hperm.mem_iff.mp hp
    rcases List.mem_append.mp hp' with hin | hin
    · exact hpos p hin
    · simp only [List.mem_singleton] at hin
      subst hin
      show 1 ≤ n
      omega

theorem mentions_self (s : String) : mentions s s := ⟨[], [], by simp⟩

theorem mentions_append_left {msg inp : String} (h : mentions msg inp) (y : String) :
    mentions (msg ++ y) inp := by
  obtain ⟨s, t, hst⟩ := h
  exact ⟨s, t ++ y.data, by rw [String.data_append, ← hst]; simp⟩

theorem mentions_append_right {msg inp : String} (x : String) (h : mentions msg inp) :
    mentions (x ++ msg) inp := by
  obtain ⟨s, t, hst⟩ := h
  exact ⟨x.data ++ s, t, by rw [String.data_append, ← hst]; simp⟩

theorem opls_elem_iff {p : DihPara} (hpos : 1 ≤ p.n) :
    ((if p.n = 1 then decide (p.phi = 0)
      else if p.n = 2 then decide (p.phi = 180)
      else if p.n = 3 then decide (p.phi = 0)
      else if p.n = 4 then decide (p.phi = 180)
      else decide (p.k = 0)) = true) ↔ oplsPhasePattern p := by
  unfold oplsPhasePattern
  by_cases h1 : p.n = 1
  · simp [h1]
  by_cases h2 : p.n = 2
  · simp [h1, h2]
  by_cases h3 : p.n = 3
  · simp [h1, h2, h3]
  by_cases h4 : p.n = 4
  · simp [h1, h2, h3, h4]
  have hgt : 4 < p.n := by omega
  simp [h1, h2, h3, h4, hgt]

theorem oplsGo_ok_iff (nm : String) (ps : List DihPara) :
    ∀ acc, (∃ v, oplsGo nm ps acc = .ok v) ↔ ∀ p ∈ ps, oplsStrict p := by
  induction ps with
  | nil =>
    intro acc
    simp [oplsGo]
  | cons p rest ih =>
    intro acc
    obtain ⟨k1, k2, k3, k4⟩ := acc
    rw [List.forall_mem_cons]
    by_cases h1 : p.n = 1
    · by_cases hp : p.phi = 0
      · have hstep : oplsGo nm (p :: rest) (k1, k2, k3, k4) =
            oplsGo nm rest (p.k, k2, k3, k4) := by
          simp [oplsGo, h1, hp]
        rw [hstep, ih]
        simp [oplsStrict, h1, hp]
      · have hstep : oplsGo nm (p :: rest) (k1, k2, k3, k4) =
            .error (nm ++ " does not follow OPLS convention, phi_1 != 0") := by
          simp [oplsGo, h1, hp]
        rw [hstep]
        simp [oplsStrict, h1, hp]
    · by_cases h2 : p.n = 2
      · by_cases hp : p.phi = 180
        · have hstep : oplsGo nm (p :: rest) (k1, k2, k3, k4) =
              oplsGo nm rest (k1, p.k, k3, k4) := by
            simp [oplsGo, h1, h2, hp]
          rw [hstep, ih]
          simp [oplsStrict, h1, h2, hp]
        · have hstep : oplsGo nm (p :: rest) (k1, k2, k3, k4) =
              .error (nm ++ " does not follow OPLS convention, phi_2 != 180") := by
            simp [oplsGo, h1, h2, hp]
          rw [hstep]
          simp [oplsStrict, h1, h2, hp]
      · by_cases h3 : p.n = 3
        · by_cases hp : p.phi = 0
          · have hstep : oplsGo nm (p :: rest) (k1, k2, k3, k4) =
                oplsGo nm rest (k1, k2, p.k, k4) := by
              simp [oplsGo, h1, h2, h3, hp]
            rw [hstep, ih]
            simp [oplsStrict, h1, h2, h3, hp]
          · have hstep : oplsGo nm (p :: rest) (k1, k2, k3, k4) =
                .error (nm ++ " does not follow OPLS convention, phi_3 != 0") := by
              simp [oplsGo, h1, h2, h3, hp]
            rw [hstep]
            simp [oplsStrict, h1, h2, h3, hp]
        · by_cases h4 : p.n = 4
          · by_cases hp : p.phi = 180
            · have hstep : oplsGo nm (p :: rest) (k1, k2, k3, k4) =
                  oplsGo nm rest (k1, k2, k3, p.k) := by
                simp [oplsGo, h1, h2, h3, h4, hp]
              rw [hstep, ih]
              simp [oplsStrict, h1, h2, h3, h4, hp]
            · have hstep : oplsGo nm (p :: rest) (k1, k2, k3, k4) =
                  .error (nm ++ " does not follow OPLS convention, phi_4 != 180") := by
                simp [oplsGo, h1, h2, h3, h4, hp]
              rw [hstep]
              simp [oplsStrict, h1, h2, h3, h4, hp]
          · have hstep : oplsGo nm (p :: rest) (k1, k2, k3, k4) =
                .error (nm ++ " does not follow OPLS convention, n > 4") := by
              simp [oplsGo, h1, h2, h3, h4]
            rw [hstep]
            simp [oplsStrict, h1, h2, h3, h4]

theorem oplsGo_ok_val (nm : String) (ps : List DihPara) :
    ∀ acc : ℚ × ℚ × ℚ × ℚ, (∀ p ∈ ps, oplsStrict p) →
    ps.Pairwise (fun a b => a.n ≠ b.n) →
    oplsGo nm ps acc = .ok
      (((ps.find? fun p => p.n == 1).map DihPara.k).getD acc.1,
       ((ps.find? fun p => p.n == 2).map DihPara.k).getD acc.2.1,
       ((ps.find? fun p => p.n == 3).map DihPara.k).getD acc.2.2.1,
       ((ps.find? fun p => p.n == 4).map DihPara.k).getD acc.2.2.2) := by
  induction ps with
  | nil =>
    intro acc hstrict hnd
    simp [oplsGo]
  | cons p rest ih =>
    intro acc hstrict hnd
    obtain ⟨k1, k2, k3, k4⟩ := acc
    have hrest : ∀ x ∈ rest, p.n ≠ x.n := fun x hx => List.rel_of_pairwise_cons hnd hx
    rcases hstrict p (by simp) with ⟨h1, hp⟩ | ⟨h2, hp⟩ | ⟨h3, hp⟩ | ⟨h4, hp⟩
    · have hstep : oplsGo nm (p :: rest) (k1, k2, k3, k4) =
          oplsGo nm rest (p.k, k2, k3, k4) := by
        simp [oplsGo, h1, hp]
      have hnone : rest.find? (fun q => q.n == 1) = none :=
        List.find?_eq_none.mpr fun x hx => by
          have := hrest x hx
          simp only [beq_iff_eq]
          omega
      rw [hstep, ih _ (fun q hq => hstrict q (by simp [hq])) hnd.of_cons]
      have f1 : ((p :: rest).find? fun q => q.n == 1) = some p :=
        List.find?_cons_of_pos _ (by simp [h1])
      have f2 : ((p :: rest).find? fun q => q.n == 2) = rest.find? fun q => q.n == 2 :=
        List.find?_cons_of_neg _ (by simp [h1])
      have f3 : ((p :: rest).find? fun q => q.n == 3) = rest.find? fun q => q.n == 3 :=
        List.find?_cons_of_neg _ (by simp [h1])
      have f4 : ((p :: rest).find? fun q => q.n == 4) = rest.find? fun q => q.n == 4 :=
        List.find?_cons_of_neg _ (by simp [h1])
      rw [f1, f2, f3, f4, hnone]
      simp
    · have hstep : oplsGo nm (p :: rest) (k1, k2, k3, k4) =
          oplsGo nm rest (k1, p.k, k3, k4) := by
        simp [oplsGo, h2, hp]
      have hnone : rest.find? (fun q => q.n == 2) = none :=
        List.find?_eq_none.mpr fun x hx => by
          have := hrest x hx
          simp only [beq_iff_eq]
          omega
      rw [hstep, ih _ (fun q hq => hstrict q (by simp [hq])) hnd.of_cons]
      have f1 : ((p :: rest).find? fun q => q.n == 1) = rest.find? fun q => q.n == 1 :=
        List.find?_cons_of_neg _ (by simp [h2])
      have f2 : ((p :: rest).find? fun q => q.n == 2) = some p :=
        List.find?_cons_of_pos _ (by simp [h2])
      have f3 : ((p :: rest).find? fun q => q.n == 3) = rest.find? fun q => q.n == 3 :=
        List.find?_cons_of_neg _ (by simp [h2])
      have f4 : ((p :: rest).find? fun q => q.n == 4) = rest.find? fun q => q.n == 4 :=
        List.find?_cons_of_neg _ (by simp [h2])
      rw [f1, f2, f3, f4, hnone]
      simp
    · have hstep : oplsGo nm (p :: rest) (k1, k2, k3, k4) =
          oplsGo nm rest (k1, k2, p.k, k4) := by
        simp [oplsGo, h3, hp]
      have hnone : rest.find? (fun q => q.n == 3) = none :=
        List.find?_eq_none.mpr fun x hx => by
          have := hrest x hx
          simp only [beq_iff_eq]
          omega
      rw [hstep, ih _ (fun q hq => hstrict q (by simp [hq])) hnd.of_cons]
      have f1 : ((p :: rest).find? fun q => q.n == 1) = rest.find? fun q => q.n == 1 :=
        List.find?_cons_of_neg _ (by simp [h3])
      have f2 : ((p :: rest).find? fun q => q.n == 2) = rest.find? fun q => q.n == 2 :=
        List.find?_cons_of_neg _ (by simp [h3])
      have f3 : ((p :: rest).find? fun q => q.n == 3) = some p :=
        List.find?_cons_of_pos _ (by simp [h3])
      have f4 : ((p :: rest).find? fun q => q.n == 4) = rest.find? fun q => q.n == 4 :=
        List.find?_cons_of_neg _ (by simp [h3])
      rw [f1, f2, f3, f4, hnone]
      simp
    · have hstep : oplsGo nm (p :: rest) (k1, k2, k3, k4) =
          oplsGo nm rest (k1, k2, k3, p.k) := by
        simp [oplsGo, h4, hp]
      have hnone : rest.find? (fun q => q.n == 4) = none :=
        List.find?_eq_none.mpr fun x hx => by
          have := hrest x hx
          simp only [beq_iff_eq]
          omega
      rw [hstep, ih _ (fun q hq => hstrict q (by simp [hq])) hnd.of_cons]
      have f1 : ((p :: rest).find? fun q => q.n == 1) = rest.find? fun q => q.n == 1 :=
        List.find?_cons_of_neg _ (by simp [h4])
      have f2 : ((p :: rest).find? fun q => q.n == 2) = rest.find? fun q => q.n == 2 :=
        List.find?_cons_of_neg _ (by simp [h4])
      have f3 : ((p :: rest).find? fun q => q.n == 3) = rest.find? fun q => q.n == 3 :=
        List.find?_cons_of_neg _ (by simp [h4])
      have f4 : ((p :: rest).find? fun q => q.n == 4) = some p :=
        List.find?_cons_of_pos _ (by simp [h4])
      rw [f1, f2, f3, f4, hnone]
      simp

/-! ### Claim theorems -/

/-- Claim C8: `ChargeIncrementTerm` construction raises
`ChargeIncrementNonZeroError` exactly when `type1 = type2` and `value ≠ 0`;
with equal types and value `0` (or distinct types) construction succeeds. -/
theorem claim_C8_chargeIncrement_self_nonzero (t1 t2 : String) (v : ℚ) :
    (ChargeIncrementTerm.init t1 t2 v =
        .error "Non-zero charge increment between atoms of same type" ↔
      (t1 = t2 ∧ v ≠ 0)) ∧
    (¬(t1 = t2 ∧ v ≠ 0) → ∃ t, ChargeIncrementTerm.init t1 t2 v = .ok t) := by
  constructor
  · unfold ChargeIncrementTerm.init
    by_cases h : t1 = t2 ∧ v ≠ 0
    · simp [h]
    · simp [h]
  · intro h
    unfold ChargeIncrementTerm.init
    rw [if_neg h]
    exact ⟨_, rfl⟩

/-- Witness for C8: `('x','x',0.1)` fails with the self-increment error and
`('x','x',0)` constructs. -/
theorem claim_C8_witness :
    ChargeIncrementTerm.init "x" "x" (1/10) =
      .error "Non-zero charge increment between atoms of same type" ∧
    ∃ t, ChargeIncrementTerm.init "x" "x" 0 = .ok t :=
  ⟨(claim_C8_chargeIncrement_self_nonzero "x" "x" (1/10)).1.mpr ⟨rfl, by norm_num⟩,
   (claim_C8_chargeIncrement_self_nonzero "x" "x" 0).2 (by simp)⟩

/-- Claim C9: for every `LJ126Term` with `sigma ≠ 0`, `evaluate_energy` at
`r = sigma` is exactly `0` — the algebraic identity
`4*eps*((sigma/sigma)^12 - (sigma/sigma)^6) = 0`. -/
theorem claim_C9_lj126_zero_at_sigma (t : LJ126Term) (h : t.sigma ≠ 0) :
    t.evaluate_energy t.sigma = .ok 0 := by
  unfold LJ126Term.evaluate_energy pydiv
  rw [if_neg h, div_self h]
  norm_num

/-- Witness for C9 at a concrete term with `sigma = 2`. -/
theorem claim_C9_witness :
    (LJ126Term.init "a" "b" 1 2).sigma ≠ 0 ∧
    (LJ126Term.init "a" "b" 1 2).evaluate_energy ((LJ126Term.init "a" "b" 1 2).sigma) =
      .ok 0 :=
  ⟨by decide, claim_C9_lj126_zero_at_sigma (LJ126Term.init "a" "b" 1 2) (by decide)⟩

/-- Claim C10 (implicit): the Mie factor and energy computations are partial:
whenever `repulsion = attraction` every one of them reaches a division by zero
and fails, and under the unstated preconditions `repulsion ≠ attraction`,
`attraction ≠ 0`, `r ≠ 0` they all succeed.  The float power `**` is
abstracted by an arbitrary total oracle `fpow`. -/
theorem claim_C10_mie_partiality (fpow : ℚ → ℚ → ℚ) (t : MieTerm) (r : ℚ) :
    (t.repulsion = t.attraction →
      (∃ e, t.factor_energy fpow = .error e) ∧
      (∃ e, t.factor_r_min fpow = .error e) ∧
      (∃ e, t.evaluate_energy fpow r = .error e)) ∧
    (t.repulsion ≠ t.attraction → t.attraction ≠ 0 → r ≠ 0 →
      (∃ v, t.factor_energy fpow = .ok v) ∧
      (∃ v, t.factor_r_min fpow = .ok v) ∧
      (∃ v, t.evaluate_energy fpow r = .ok v)) := by
  constructor
  · intro he
    have hz : t.repulsion - t.attraction = 0 := by
      rw [he]
      ring
    have hfe : ∃ e, t.factor_energy fpow = .error e := by
      unfold MieTerm.factor_energy pydiv
      rw [hz]
      simp
    refine ⟨hfe, ?_, ?_⟩
    · unfold MieTerm.factor_r_min pydiv
      rw [hz]
      by_cases ha : t.attraction = 0
      · simp [ha]
      · simp [ha]
    · obtain ⟨e, hfe'⟩ := hfe
      unfold MieTerm.evaluate_energy
      rw [hfe']
      exact ⟨e, rfl⟩
  · intro hne ha hr
    have hz : t.repulsion - t.attraction ≠ 0 := sub_ne_zero.mpr hne
    have hfe : t.factor_energy fpow =
        .ok (t.repulsion / (t.repulsion - t.attraction) *
          fpow (t.repulsion / t.attraction)
            (t.attraction / (t.repulsion - t.attraction))) := by
      unfold MieTerm.factor_energy pydiv
      rw [if_neg hz, if_neg ha, if_neg hz]
    refine ⟨⟨_, hfe⟩, ?_, ?_⟩
    · unfold MieTerm.factor_r_min pydiv
      rw [if_neg ha, if_neg hz]
      exact ⟨_, rfl⟩
    · unfold MieTerm.evaluate_energy pydiv
      rw [hfe, if_neg hr]
      exact ⟨_, rfl⟩

/-- Witness for C10: with `repulsion = attraction = 6` evaluation fails; with
`(repulsion, attraction) = (9, 6)` and `r = 1` everything succeeds. -/
theorem claim_C10_witness :
    ((∃ e, (MieTerm.init "a" "b" 1 1 6 6).factor_energy (fun _ _ => 0) = .error e) ∧
     (∃ e, (MieTerm.init "a" "b" 1 1 6 6).factor_r_min (fun _ _ => 0) = .error e) ∧
     (∃ e, (MieTerm.init "a" "b" 1 1 6 6).evaluate_energy (fun _ _ => 0) 1 = .error e)) ∧
    ((∃ v, (MieTerm.init "a" "b" 1 1 9 6).factor_energy (fun _ _ => 0) = .ok v) ∧
     (∃ v, (MieTerm.init "a" "b" 1 1 9 6).factor_r_min (fun _ _ => 0) = .ok v) ∧
     (∃ v, (MieTerm.init "a" "b" 1 1 9 6).evaluate_energy (fun _ _ => 0) 1 = .ok v)) :=
  ⟨(claim_C10_mie_partiality (fun _ _ => 0) (MieTerm.init "a" "b" 1 1 6 6) 1).1 (by decide),
   (claim_C10_mie_partiality (fun _ _ => 0) (MieTerm.init "a" "b" 1 1 9 6) 1).2
     (by decide) (by decide) (by decide)⟩

theorem count_pair_star (a b : String) :
    [a, b].count "*" = (if a = "*" then 1 else 0) + (if b = "*" then 1 else 0) := by
  by_cases ha : a = "*" <;> by_cases hb : b = "*" <;> simp [ha, hb, List.count_cons]

/-- Claim C3: the pairwise terms (`VdwTerm`, `BondTerm`, `ChargeIncrementTerm`)
built from `(a, b)` and `(b, a)` (with `a ≠ b`) get the same canonical name and
store `type1 ≤ type2`; `ChargeIncrementTerm` stores `v` when the input order
was already sorted and `-v` when it was reversed. -/
theorem claim_C3_pairwise_canonical (a b : String) (v len : ℚ) (fx : Bool) (hne : a ≠ b) :
    ((VdwTerm.init a b).name = (VdwTerm.init b a).name ∧
      (VdwTerm.init a b).type1 ≤ (VdwTerm.init a b).type2) ∧
    ((BondTerm.init a b len fx).name = (BondTerm.init b a len fx).name ∧
      (BondTerm.init a b len fx).type1 ≤ (BondTerm.init a b len fx).type2) ∧
    (∃ t u, ChargeIncrementTerm.init a b v = .ok t ∧
      ChargeIncrementTerm.init b a v = .ok u ∧
      t.name = u.name ∧ t.type1 ≤ t.type2 ∧
      (a < b → t.value = v ∧ u.value = -v) ∧
      (b < a → t.value = -v ∧ u.value = v)) := by
  have hcomm := sortPair_comm a b
  refine ⟨⟨?_, ?_⟩, ⟨?_, ?_⟩, ?_⟩
  · simp [VdwTerm.init, VdwTerm.name, hcomm]
  · exact sortPair_fst_le a b
  · simp [BondTerm.init, BondTerm.name, hcomm]
  · exact sortPair_fst_le a b
  · have hcond : ¬(a = b ∧ v ≠ 0) := fun h => hne h.1
    have hcond' : ¬(b = a ∧ v ≠ 0) := fun h => hne h.1.symm
    have hab : ChargeIncrementTerm.init a b v = .ok
        ⟨(sortPair a b).1, (sortPair a b).2, if (sortPair a b).1 = a then v else -v⟩ := by
      unfold ChargeIncrementTerm.init
      rw [if_neg hcond]
    have hba : ChargeIncrementTerm.init b a v = .ok
        ⟨(sortPair b a).1, (sortPair b a).2, if (sortPair b a).1 = b then v else -v⟩ := by
      unfold ChargeIncrementTerm.init
      rw [if_neg hcond']
    refine ⟨_, _, hab, hba, ?_, ?_, ?_, ?_⟩
    · simp [ChargeIncrementTerm.name, hcomm]
    · exact sortPair_fst_le a b
    · intro hlt
      have h1 : sortPair a b = (a, b) := sortPair_eq_of_not_lt a b (not_lt_of_lt hlt)
      have h2 : sortPair b a = (a, b) := by
        rw [← hcomm]
        exact h1
      have hba' : b ≠ a := fun h => hne h.symm
      constructor
      · simp [h1]
      · simp [h2, hne]
    · intro hlt
      have h1 : sortPair a b = (b, a) := by
        unfold sortPair
        rw [if_pos hlt]
      have h2 : sortPair b a = (b, a) := by
        rw [← hcomm]
        exact h1
      have hba' : b ≠ a := fun h => hne h.symm
      constructor
      · simp [h1, hba']
      · simp [h2]

/-- Witness for C3 at the spec example `('h_1','c_4',0.06)`. -/
theorem claim_C3_witness :
    (VdwTerm.init "h_1" "c_4").name = (VdwTerm.init "c_4" "h_1").name ∧
    (∃ t u, ChargeIncrementTerm.init "h_1" "c_4" (6/100) = .ok t ∧
      ChargeIncrementTerm.init "c_4" "h_1" (6/100) = .ok u ∧
      t.name = u.name ∧ t.type1 ≤ t.type2 ∧
      ("h_1" < "c_4" → t.value = 6/100 ∧ u.value = -(6/100)) ∧
      ("c_4" < "h_1" → t.value = -(6/100) ∧ u.value = 6/100)) :=
  ⟨(claim_C3_pairwise_canonical "h_1" "c_4" (6/100) 1 false (by decide)).1.1,
   (claim_C3_pairwise_canonical "h_1" "c_4" (6/100) 1 false (by decide)).2.2⟩

/-- Claim C2: `DihedralTerm` canonicalization — a wildcard at a center slot is
rejected; with no or two wildcard ends the stored quadruple is the
lexicographically smaller of the input and its reverse; with exactly one
wildcard end the wildcard lands in the last slot, the input being reversed
exactly when `type1` was the wildcard. -/
theorem claim_C2_dihedral_canonicalization (t1 t2 t3 t4 : String) :
    ((∃ e, dihedralCanon t1 t2 t3 t4 = .error e) ↔ (t2 = "*" ∨ t3 = "*")) ∧
    (¬(t2 = "*" ∨ t3 = "*") → (t1 = "*" ↔ t4 = "*") →
      ∃ q, dihedralCanon t1 t2 t3 t4 = .ok q ∧
        (quadList q = [t1, t2, t3, t4] ∨ quadList q = [t4, t3, t2, t1]) ∧
        tupLt [t1, t2, t3, t4] (quadList q) = false ∧
        tupLt [t4, t3, t2, t1] (quadList q) = false) ∧
    (¬(t2 = "*" ∨ t3 = "*") → t1 = "*" → t4 ≠ "*" →
      dihedralCanon t1 t2 t3 t4 = .ok (t4, t3, t2, "*")) ∧
    (¬(t2 = "*" ∨ t3 = "*") → t1 ≠ "*" → t4 = "*" →
      dihedralCanon t1 t2 t3 t4 = .ok (t1, t2, t3, "*")) := by
  refine ⟨?_, ?_, ?_, ?_⟩
  · constructor
    · rintro ⟨e, he⟩
      by_cases hc : t2 = "*" ∨ t3 = "*"
      · exact hc
      · unfold dihedralCanon at he
        rw [if_neg hc] at he
        by_cases hw : [t1, t4].count "*" = 0 ∨ [t1, t4].count "*" = 2
        · rw [if_pos hw] at he
          simp at he
        · rw [if_neg hw] at he
          by_cases h1 : t1 = "*"
          · rw [if_pos h1] at he
            simp at he
          · rw [if_neg h1] at he
            simp at he
    · intro hc
      exact ⟨_, by unfold dihedralCanon; rw [if_pos hc]⟩
  · intro hc hiff
    have hw : [t1, t4].count "*" = 0 ∨ [t1, t4].count "*" = 2 := by
      rw [count_pair_star]
      by_cases h1 : t1 = "*"
      · right
        rw [if_pos h1, if_pos (hiff.mp h1)]
      · left
        rw [if_neg h1, if_neg (fun h4 => h1 (hiff.mpr h4))]
    unfold dihedralCanon
    rw [if_neg hc, if_pos hw]
    by_cases ht : tupLt [t4, t3, t2, t1] [t1, t2, t3, t4] = true
    · rw [if_pos ht]
      exact ⟨_, rfl, Or.inr rfl,
        by simp [quadList, tupLt_asymm ht],
        by simp [quadList, tupLt_irrefl]⟩
    · rw [if_neg ht]
      have htf : tupLt [t4, t3, t2, t1] [t1, t2, t3, t4] = false :=
        Bool.eq_false_iff.mpr ht
      exact ⟨_, rfl, Or.inl rfl,
        by simp [quadList, tupLt_irrefl],
        by simp [quadList, htf]⟩
  · intro hc h1 h4
    subst h1
    have hw : ¬([("*" : String), t4].count "*" = 0 ∨ [("*" : String), t4].count "*" = 2) := by
      rw [count_pair_star]
      simp [h4]
    unfold dihedralCanon
    rw [if_neg hc, if_neg hw, if_pos rfl]
  · intro hc h1 h4
    subst h4
    have hw : ¬([t1, ("*" : String)].count "*" = 0 ∨ [t1, ("*" : String)].count "*" = 2) := by
      rw [count_pair_star]
      simp [h1]
    unfold dihedralCanon
    rw [if_neg hc, if_neg hw, if_neg h1]

/-- Witness for C2: a palindromic exact dihedral, a `type1` wildcard (reversed)
and a `type4` wildcard (kept). -/
theorem claim_C2_witness :
    (∃ q, dihedralCanon "h_1" "c_4" "c_4" "h_1" = .ok q ∧
      (quadList q = ["h_1", "c_4", "c_4", "h_1"] ∨
        quadList q = ["h_1", "c_4", "c_4", "h_1"]) ∧
      tupLt ["h_1", "c_4", "c_4", "h_1"] (quadList q) = false ∧
      tupLt ["h_1", "c_4", "c_4", "h_1"] (quadList q) = false) ∧
    dihedralCanon "*" "b" "c" "d" = .ok ("d", "c", "b", "*") ∧
    dihedralCanon "a" "b" "c" "*" = .ok ("a", "b", "c", "*") :=
  ⟨(claim_C2_dihedral_canonicalization "h_1" "c_4" "c_4" "h_1").2.1 (by decide) (by decide),
   (claim_C2_dihedral_canonicalization "*" "b" "c" "d").2.2.1 (by decide) rfl (by decide),
   (claim_C2_dihedral_canonicalization "a" "b" "c" "*").2.2.2 (by decide) (by decide) rfl⟩

/-- Claim C6: `add_parameter` succeeds exactly when the multiplicity is a
positive integer not already present (failure returns an error and, the model
being functional, leaves the original list untouched); on success the
parameter list is sorted by multiplicity, and the full
`add_parameter` invariant (strictly increasing positive multiplicities) is
preserved. -/
theorem claim_C6_add_parameter (t : PeriodicDihedralTerm) (phi k : ℚ) (n : ℤ) :
    ((∃ t', t.add_parameter phi k n = .ok t') ↔
      (1 ≤ n ∧ ∀ p ∈ t.parameters, p.n ≠ n)) ∧
    (∀ t', t.add_parameter phi k n = .ok t' →
      List.Sorted (fun (a b : DihPara) => a.n ≤ b.n) t'.parameters) ∧
    (ParamsOk t.parameters → ∀ t', t.add_parameter phi k n = .ok t' →
      ParamsOk t'.parameters) := by
  haveI : IsTotal DihPara (fun a b => a.n ≤ b.n) := ⟨fun a b => le_total a.n b.n⟩
  haveI : IsTrans DihPara (fun a b => a.n ≤ b.n) :=
    ⟨fun a b c hab hbc => le_trans hab hbc⟩
  refine ⟨?_, ?_, ?_⟩
  · unfold PeriodicDihedralTerm.add_parameter
    by_cases h1 : n < 1
    · rw [if_pos h1]
      simp
      omega
    rw [if_neg h1]
    by_cases h2 : t.parameters.any (fun p => p.n == n) = true
    · rw [if_pos h2]
      simp only [List.any_eq_true, beq_iff_eq] at h2
      obtain ⟨p, hp, he⟩ := h2
      simp
      intro
      exact ⟨p, hp, he⟩
    · rw [if_neg h2]
      simp only [List.any_eq_true, beq_iff_eq, not_exists] at h2
      simp
      constructor
      · omega
      · intro p hp
        intro he
        exact h2 p ⟨hp, he⟩
  · intro t' h
    unfold PeriodicDihedralTerm.add_parameter at h
    by_cases h1 : n < 1
    · rw [if_pos h1] at h
      exact absurd h (by simp)
    rw [if_neg h1] at h
    by_cases h2 : t.parameters.any (fun p => p.n == n) = true
    · rw [if_pos h2] at h
      exact absurd h (by simp)
    · rw [if_neg h2] at h
      simp only [Except.ok.injEq] at h
      subst h
      exact List.sorted_insertionSort _ _
  · intro hok t' h
    exact add_parameter_paramsOk hok h

/-- Witness for C6: adding multiplicity 2 to a list holding multiplicity 1
succeeds and stays sorted. -/
theorem claim_C6_witness :
    (∃ t', PeriodicDihedralTerm.add_parameter
      ⟨"a", "b", "c", "d", [⟨0, 1, 1⟩]⟩ 180 2 2 = .ok t') ∧
    List.Sorted (fun (a b : DihPara) => a.n ≤ b.n)
      ([⟨0, 1, 1⟩, ⟨180, 2, 2⟩] : List DihPara) :=
  ⟨(claim_C6_add_parameter ⟨"a", "b", "c", "d", [⟨0, 1, 1⟩]⟩ 180 2 2).1.mpr
     ⟨by decide, by decide⟩,
   (claim_C6_add_parameter ⟨"a", "b", "c", "d", [⟨0, 1, 1⟩]⟩ 180 2 2).2.1
     ⟨"a", "b", "c", "d", [⟨0, 1, 1⟩, ⟨180, 2, 2⟩]⟩ (by decide)⟩

/-- Claim C7: canonicalization is idempotent for every variant — re-running
each constructor on the already-canonical stored fields of a constructed term
(passing the stored `value` for `ChargeIncrementTerm`) reproduces the term
exactly. -/
theorem claim_C7_canonicalization_idempotent :
    (∀ (nm : String) (mass charge : ℚ) (e1 e2 e3 e4 e5 e6 e7 e8 e9 e10 : String),
      AtomType.init (AtomType.init nm mass charge e1 e2 e3 e4 e5 e6 e7 e8 e9 e10).name
        mass charge
        (AtomType.init nm mass charge e1 e2 e3 e4 e5 e6 e7 e8 e9 e10).eqt_vdw
        (AtomType.init nm mass charge e1 e2 e3 e4 e5 e6 e7 e8 e9 e10).eqt_q_inc
        (AtomType.init nm mass charge e1 e2 e3 e4 e5 e6 e7 e8 e9 e10).eqt_bond
        (AtomType.init nm mass charge e1 e2 e3 e4 e5 e6 e7 e8 e9 e10).eqt_ang_c
        (AtomType.init nm mass charge e1 e2 e3 e4 e5 e6 e7 e8 e9 e10).eqt_ang_s
        (AtomType.init nm mass charge e1 e2 e3 e4 e5 e6 e7 e8 e9 e10).eqt_dih_c
        (AtomType.init nm mass charge e1 e2 e3 e4 e5 e6 e7 e8 e9 e10).eqt_dih_s
        (AtomType.init nm mass charge e1 e2 e3 e4 e5 e6 e7 e8 e9 e10).eqt_imp_c
        (AtomType.init nm mass charge e1 e2 e3 e4 e5 e6 e7 e8 e9 e10).eqt_imp_s
        (AtomType.init nm mass charge e1 e2 e3 e4 e5 e6 e7 e8 e9 e10).eqt_polar =
      AtomType.init nm mass charge e1 e2 e3 e4 e5 e6 e7 e8 e9 e10) ∧
    (∀ (a b : String) (v : ℚ) (t : ChargeIncrementTerm),
      ChargeIncrementTerm.init a b v = .ok t →
      ChargeIncrementTerm.init t.type1 t.type2 t.value = .ok t) ∧
    (∀ a b : String,
      VdwTerm.init (VdwTerm.init a b).type1 (VdwTerm.init a b).type2 = VdwTerm.init a b) ∧
    (∀ (a b : String) (len : ℚ) (fx : Bool),
      BondTerm.init (BondTerm.init a b len fx).type1 (BondTerm.init a b len fx).type2
        len fx = BondTerm.init a b len fx) ∧
    (∀ (a b c : String) (th : ℚ) (fx : Bool),
      AngleTerm.init (AngleTerm.init a b c th fx).type1 (AngleTerm.init a b c th fx).type2
        (AngleTerm.init a b c th fx).type3 th fx = AngleTerm.init a b c th fx) ∧
    (∀ (t1 t2 t3 t4 : String) (t : DihedralTerm),
      DihedralTerm.init t1 t2 t3 t4 = .ok t →
      DihedralTerm.init t.type1 t.type2 t.type3 t.type4 = .ok t) ∧
    (∀ (t1 t2 t3 t4 : String) (t : ImproperTerm),
      ImproperTerm.init t1 t2 t3 t4 = .ok t →
      ImproperTerm.init t.type1 t.type2 t.type3 t.type4 = .ok t) ∧
    (∀ ty : String,
      PolarizableTerm.init (PolarizableTerm.init ty).type = PolarizableTerm.init ty) ∧
    (∀ (a b : String) (e s : ℚ),
      LJ126Term.init (LJ126Term.init a b e s).type1 (LJ126Term.init a b e s).type2 e s =
        LJ126Term.init a b e s) ∧
    (∀ (a b : String) (e s rep att : ℚ),
      MieTerm.init (MieTerm.init a b e s rep att).type1
        (MieTerm.init a b e s rep att).type2 e s rep att = MieTerm.init a b e s rep att) ∧
    (∀ (a b : String) (len k : ℚ) (fx : Bool),
      HarmonicBondTerm.init (HarmonicBondTerm.init a b len k fx).type1
        (HarmonicBondTerm.init a b len k fx).type2 len k fx =
        HarmonicBondTerm.init a b len k fx) ∧
    (∀ (a b c : String) (th k : ℚ) (fx : Bool),
      HarmonicAngleTerm.init (HarmonicAngleTerm.init a b c th k fx).type1
        (HarmonicAngleTerm.init a b c th k fx).type2
        (HarmonicAngleTerm.init a b c th k fx).type3 th k fx =
        HarmonicAngleTerm.init a b c th k fx) ∧
    (∀ (a b c : String) (th k : ℚ),
      SDKAngleTerm.init (SDKAngleTerm.init a b c th k).type1
        (SDKAngleTerm.init a b c th k).type2
        (SDKAngleTerm.init a b c th k).type3 th k = SDKAngleTerm.init a b c th k) ∧
    (∀ (t1 t2 t3 t4 : String) (t : PeriodicDihedralTerm),
      PeriodicDihedralTerm.init t1 t2 t3 t4 = .ok t →
      PeriodicDihedralTerm.init t.type1 t.type2 t.type3 t.type4 = .ok t) ∧
    (∀ (t1 t2 t3 t4 : String) (k : ℚ) (t : OplsImproperTerm),
      OplsImproperTerm.init t1 t2 t3 t4 k = .ok t →
      OplsImproperTerm.init t.type1 t.type2 t.type3 t.type4 t.k = .ok t) ∧
    (∀ (t1 t2 t3 t4 : String) (phi k : ℚ) (t : HarmonicImproperTerm),
      HarmonicImproperTerm.init t1 t2 t3 t4 phi k = .ok t →
      HarmonicImproperTerm.init t.type1 t.type2 t.type3 t.type4 t.phi t.k = .ok t) ∧
    (∀ (ty : String) (alpha thole k mass mrg : ℚ),
      DrudeTerm.init (DrudeTerm.init ty alpha thole k mass mrg).type alpha thole k
        mass mrg = DrudeTerm.init ty alpha thole k mass mrg) :=
  ⟨atomType_init_idem,
   fun _ _ _ _ h => chargeIncrement_init_idem h,
   vdw_init_idem,
   bond_init_idem,
   angle_init_idem,
   fun _ _ _ _ _ h => dihedral_init_idem h,
   fun _ _ _ _ _ h => improper_init_idem h,
   fun _ => rfl,
   lj126_init_idem,
   mie_init_idem,
   harmonicBond_init_idem,
   harmonicAngle_init_idem,
   sdkAngle_init_idem,
   fun _ _ _ _ _ h => pdt_init_idem h,
   fun _ _ _ _ _ _ h => oplsImproper_init_idem h,
   fun _ _ _ _ _ _ _ h => harmonicImproper_init_idem h,
   drude_init_idem⟩

/-- Witness for C7: idempotence instantiated at concrete charge-increment,
dihedral, improper and periodic-dihedral terms. -/
theorem claim_C7_witness :
    ChargeIncrementTerm.init "c_4" "h_1" (-(6/100)) = .ok ⟨"c_4", "h_1", -(6/100)⟩ ∧
    DihedralTerm.init "d" "c" "b" "*" = .ok ⟨"d", "c", "b", "*"⟩ ∧
    ImproperTerm.init "c" "a" "*" "*" = .ok ⟨"c", "a", "*", "*"⟩ ∧
    PeriodicDihedralTerm.init "a" "b" "c" "*" = .ok ⟨"a", "b", "c", "*", []⟩ := by
  have hlt : ("c_4" : String) < "h_1" := by
    rw [String.lt_iff_toList_lt]
    decide
  have hsp : sortPair "h_1" "c_4" = ("c_4", "h_1") := by
    unfold sortPair
    rw [if_pos hlt]
  have hci : ChargeIncrementTerm.init "h_1" "c_4" (6/100) =
      .ok ⟨"c_4", "h_1", -(6/100)⟩ := by
    simp [ChargeIncrementTerm.init, hsp]
  exact ⟨claim_C7_canonicalization_idempotent.2.1 "h_1" "c_4" (6/100)
      ⟨"c_4", "h_1", -(6/100)⟩ hci,
    claim_C7_canonicalization_idempotent.2.2.2.2.2.1 "*" "b" "c" "d"
      ⟨"d", "c", "b", "*"⟩ rfl,
    claim_C7_canonicalization_idempotent.2.2.2.2.2.2.1 "c" "*" "a" "*"
      ⟨"c", "a", "*", "*"⟩ rfl,
    claim_C7_canonicalization_idempotent.2.2.2.2.2.2.2.2.2.2.2.2.2.1 "*" "c" "b" "a"
      ⟨"a", "b", "c", "*", []⟩ rfl⟩

/-- Claim C5 (amended): `is_opls_convention` holds exactly when every stored
parameter matches the OPLS phase pattern (`n=1→phi=0`, `n=2→phi=180`,
`n=3→phi=0`, `n=4→phi=180`, any `n>4` with `k=0`); `get_opls_parameters`
however succeeds only under the stricter condition that every multiplicity is
one of 1..4 with the matching phase — a zero-`k` parameter with `n>4` passes
`is_opls_convention` but makes `get_opls_parameters` raise — and on success it
returns the four force constants with absent multiplicities defaulting to 0. -/
theorem claim_C5_opls_parameters (t : PeriodicDihedralTerm) (hok : ParamsOk t.parameters) :
    (t.is_opls_convention = true ↔ ∀ p ∈ t.parameters, oplsPhasePattern p) ∧
    ((∃ v, t.get_opls_parameters = .ok v) ↔ ∀ p ∈ t.parameters, oplsStrict p) ∧
    ((∀ p ∈ t.parameters, oplsStrict p) →
      t.get_opls_parameters = .ok (kOf t 1, kOf t 2, kOf t 3, kOf t 4)) := by
  obtain ⟨hs, hpos⟩ := hok
  refine ⟨?_, ?_, ?_⟩
  · unfold PeriodicDihedralTerm.is_opls_convention
    rw [List.all_eq_true]
    constructor
    · intro h p hp
      exact (opls_elem_iff (hpos p hp)).mp (h p hp)
    · intro h p hp
      exact (opls_elem_iff (hpos p hp)).mpr (h p hp)
  · exact oplsGo_ok_iff _ _ _
  · intro hstrict
    have hnd : t.parameters.Pairwise (fun a b => a.n ≠ b.n) := hs.imp ne_of_lt
    exact oplsGo_ok_val _ _ _ hstrict hnd

/-- Counterexample to C5 as stated: a validly constructed term holding the
single parameter `(phi=0, k=0, n=5)` satisfies `is_opls_convention` but
`get_opls_parameters` fails instead of returning the four constants. -/
theorem claim_C5_counterexample :
    PeriodicDihedralTerm.init "a" "b" "c" "*" = .ok ⟨"a", "b", "c", "*", []⟩ ∧
    PeriodicDihedralTerm.add_parameter ⟨"a", "b", "c", "*", []⟩ 0 0 5 =
      .ok ⟨"a", "b", "c", "*", [⟨0, 0, 5⟩]⟩ ∧
    PeriodicDihedralTerm.is_opls_convention ⟨"a", "b", "c", "*", [⟨0, 0, 5⟩]⟩ = true ∧
    PeriodicDihedralTerm.get_opls_parameters ⟨"a", "b", "c", "*", [⟨0, 0, 5⟩]⟩ =
      .error "<PeriodicDihedralTerm: a,b,c,*> does not follow OPLS convention, n > 4" :=
  ⟨rfl, rfl, rfl, rfl⟩

/-- Witness for C5 at the spec's example parameter set
`(0, 0.6485, 1), (180, 1.0678, 2), (0, 0.6226, 3)`. -/
theorem claim_C5_witness :
    PeriodicDihedralTerm.is_opls_convention
      ⟨"h_1", "c_4", "c_4", "*",
        [⟨0, 6485/10000, 1⟩, ⟨180, 10678/10000, 2⟩, ⟨0, 6226/10000, 3⟩]⟩ = true ∧
    PeriodicDihedralTerm.get_opls_parameters
      ⟨"h_1", "c_4", "c_4", "*",
        [⟨0, 6485/10000, 1⟩, ⟨180, 10678/10000, 2⟩, ⟨0, 6226/10000, 3⟩]⟩ =
      .ok (6485/10000, 10678/10000, 6226/10000, 0) :=
  ⟨(claim_C5_opls_parameters
      ⟨"h_1", "c_4", "c_4", "*",
        [⟨0, 6485/10000, 1⟩, ⟨180, 10678/10000, 2⟩, ⟨0, 6226/10000, 3⟩]⟩
      (by decide)).1.mpr (by decide),
   (claim_C5_opls_parameters
      ⟨"h_1", "c_4", "c_4", "*",
        [⟨0, 6485/10000, 1⟩, ⟨180, 10678/10000, 2⟩, ⟨0, 6226/10000, 3⟩]⟩
      (by decide)).2.2 (by decide)⟩

/-- Claim C1: the ZFP round trip.  For every registered variant, feeding
`to_zfp` of a validly constructed term back through
`FFTermFactory.create_from_zfp` under the variant's class name reconstructs
the term: exactly for every variant except `PeriodicDihedralTerm`, whose
parameter list comes back with the same multiplicities and with `phi` within
`0.05` and `k` within `0.00005` (the `%.1f` / `%.4f` formatting precision),
including terms with two or more distinct multiplicities. -/
theorem claim_C1_zfp_roundtrip :
    (∀ (nm : String) (mass charge : ℚ) (e1 e2 e3 e4 e5 e6 e7 e8 e9 e10 : String),
      create_from_zfp "AtomType" (to_zfp (.atomType
          (AtomType.init nm mass charge e1 e2 e3 e4 e5 e6 e7 e8 e9 e10))) =
        .ok (.atomType (AtomType.init nm mass charge e1 e2 e3 e4 e5 e6 e7 e8 e9 e10))) ∧
    (∀ (a b : String) (v : ℚ) (t : ChargeIncrementTerm),
      ChargeIncrementTerm.init a b v = .ok t →
      create_from_zfp "ChargeIncrementTerm" (to_zfp (.chargeIncrement t)) =
        .ok (.chargeIncrement t)) ∧
    (∀ (a b : String) (e s : ℚ),
      create_from_zfp "LJ126Term" (to_zfp (.lj126 (LJ126Term.init a b e s))) =
        .ok (.lj126 (LJ126Term.init a b e s))) ∧
    (∀ (a b : String) (e s rep att : ℚ),
      create_from_zfp "MieTerm" (to_zfp (.mie (MieTerm.init a b e s rep att))) =
        .ok (.mie (MieTerm.init a b e s rep att))) ∧
    (∀ (a b : String) (len k : ℚ) (fx : Bool),
      create_from_zfp "HarmonicBondTerm"
          (to_zfp (.harmonicBond (HarmonicBondTerm.init a b len k fx))) =
        .ok (.harmonicBond (HarmonicBondTerm.init a b len k fx))) ∧
    (∀ (a b c : String) (th k : ℚ) (fx : Bool),
      create_from_zfp "HarmonicAngleTerm"
          (to_zfp (.harmonicAngle (HarmonicAngleTerm.init a b c th k fx))) =
        .ok (.harmonicAngle (HarmonicAngleTerm.init a b c th k fx))) ∧
    (∀ (a b c : String) (th k : ℚ),
      create_from_zfp "SDKAngleTerm"
          (to_zfp (.sdkAngle (SDKAngleTerm.init a b c th k))) =
        .ok (.sdkAngle (SDKAngleTerm.init a b c th k))) ∧
    (∀ t : PeriodicDihedralTerm,
      dihedralCanon t.type1 t.type2 t.type3 t.type4 =
        .ok (t.type1, t.type2, t.type3, t.type4) →
      ParamsOk t.parameters →
      create_from_zfp "PeriodicDihedralTerm" (to_zfp (.periodicDihedral t)) =
        .ok (.periodicDihedral { t with parameters := t.parameters.map roundPara }) ∧
      FFTerm.name (.periodicDihedral { t with parameters := t.parameters.map roundPara }) =
        FFTerm.name (.periodicDihedral t) ∧
      List.Forall₂ paraClose (t.parameters.map roundPara) t.parameters) ∧
    (∀ (a b c d : String) (k : ℚ) (t : OplsImproperTerm),
      OplsImproperTerm.init a b c d k = .ok t →
      create_from_zfp "OplsImproperTerm" (to_zfp (.oplsImproper t)) =
        .ok (.oplsImproper t)) ∧
    (∀ (a b c d : String) (phi k : ℚ) (t : HarmonicImproperTerm),
      HarmonicImproperTerm.init a b c d phi k = .ok t →
      create_from_zfp "HarmonicImproperTerm" (to_zfp (.harmonicImproper t)) =
        .ok (.harmonicImproper t)) ∧
    (∀ (ty : String) (alpha thole k mass mrg : ℚ),
      create_from_zfp "DrudeTerm"
          (to_zfp (.drude (DrudeTerm.init ty alpha thole k mass mrg))) =
        .ok (.drude (DrudeTerm.init ty alpha thole k mass mrg))) := by
  refine ⟨?_, ?_, ?_, ?_, ?_, ?_, ?_, ?_, ?_, ?_, ?_⟩
  · intro nm mass charge e1 e2 e3 e4 e5 e6 e7 e8 e9 e10
    rw [create_atomType]
    exact congrArg (fun x => Except.ok (FFTerm.atomType x))
      (atomType_init_idem nm mass charge e1 e2 e3 e4 e5 e6 e7 e8 e9 e10)
  · intro a b v t h
    rw [create_chargeIncrement t, chargeIncrement_init_idem h]
  · intro a b e s
    rw [create_lj126]
    exact congrArg (fun x => Except.ok (FFTerm.lj126 x)) (lj126_init_idem a b e s)
  · intro a b e s rep att
    rw [create_mie]
    exact congrArg (fun x => Except.ok (FFTerm.mie x)) (mie_init_idem a b e s rep att)
  · intro a b len k fx
    rw [create_harmonicBond]
    exact congrArg (fun x => Except.ok (FFTerm.harmonicBond x))
      (harmonicBond_init_idem a b len k fx)
  · intro a b c th k fx
    rw [create_harmonicAngle]
    exact congrArg (fun x => Except.ok (FFTerm.harmonicAngle x))
      (harmonicAngle_init_idem a b c th k fx)
  · intro a b c th k
    rw [create_sdkAngle]
    exact congrArg (fun x => Except.ok (FFTerm.sdkAngle x)) (sdkAngle_init_idem a b c th k)
  · intro t hcanon hok
    exact ⟨pdt_roundtrip t hcanon hok, rfl, forall2_roundPara t.parameters⟩
  · intro a b c d k t h
    rw [create_oplsImproper t, oplsImproper_init_idem h]
  · intro a b c d phi k t h
    rw [create_harmonicImproper t, harmonicImproper_init_idem h]
  · intro ty alpha thole k mass mrg
    rw [create_drude]
    rfl

/-- Witness for C1's conditional parts: a concrete charge increment, a
three-multiplicity periodic dihedral, and the improper variants. -/
theorem claim_C1_witness :
    (create_from_zfp "ChargeIncrementTerm"
        (to_zfp (.chargeIncrement ⟨"c_4", "h_1", -(6/100)⟩)) =
      .ok (.chargeIncrement ⟨"c_4", "h_1", -(6/100)⟩)) ∧
    (create_from_zfp "PeriodicDihedralTerm"
        (to_zfp (.periodicDihedral ⟨"h_1", "c_4", "c_4", "*",
          [⟨0, 6485/10000, 1⟩, ⟨180, 10678/10000, 2⟩, ⟨0, 6226/10000, 3⟩]⟩)) =
      .ok (.periodicDihedral ⟨"h_1", "c_4", "c_4", "*",
        List.map roundPara
          [⟨0, 6485/10000, 1⟩, ⟨180, 10678/10000, 2⟩, ⟨0, 6226/10000, 3⟩]⟩) ∧
      List.Forall₂ paraClose
        (List.map roundPara
          [⟨0, 6485/10000, 1⟩, ⟨180, 10678/10000, 2⟩, ⟨0, 6226/10000, 3⟩])
        [⟨0, 6485/10000, 1⟩, ⟨180, 10678/10000, 2⟩, ⟨0, 6226/10000, 3⟩]) ∧
    (create_from_zfp "OplsImproperTerm" (to_zfp (.oplsImproper ⟨"c", "a", "*", "*", 2⟩)) =
      .ok (.oplsImproper ⟨"c", "a", "*", "*", 2⟩)) ∧
    (create_from_zfp "HarmonicImproperTerm"
        (to_zfp (.harmonicImproper ⟨"c", "a", "*", "*", 1, 2⟩)) =
      .ok (.harmonicImproper ⟨"c", "a", "*", "*", 1, 2⟩)) := by
  have hlt : ("c_4" : String) < "h_1" := by
    rw [String.lt_iff_toList_lt]
    decide
  have hsp : sortPair "h_1" "c_4" = ("c_4", "h_1") := by
    unfold sortPair
    rw [if_pos hlt]
  have hci : ChargeIncrementTerm.init "h_1" "c_4" (6/100) =
      .ok ⟨"c_4", "h_1", -(6/100)⟩ := by
    simp [ChargeIncrementTerm.init, hsp]
  have hpdt := claim_C1_zfp_roundtrip.2.2.2.2.2.2.2.1
    ⟨"h_1", "c_4", "c_4", "*",
      [⟨0, 6485/10000, 1⟩, ⟨180, 10678/10000, 2⟩, ⟨0, 6226/10000, 3⟩]⟩
    rfl (by decide)
  exact ⟨claim_C1_zfp_roundtrip.2.1 "h_1" "c_4" (6/100) ⟨"c_4", "h_1", -(6/100)⟩ hci,
    ⟨hpdt.1, hpdt.2.2⟩,
    claim_C1_zfp_roundtrip.2.2.2.2.2.2.2.2.1 "c" "a" "*" "*" 2
      ⟨"c", "a", "*", "*", 2⟩ rfl,
    claim_C1_zfp_roundtrip.2.2.2.2.2.2.2.2.2.1 "c" "a" "*" "*" 1 2
      ⟨"c", "a", "*", "*", 1, 2⟩ rfl⟩

theorem decodeAll_first_missing (s1 : List (String × AttrTy)) (attr : String)
    (ty : AttrTy) (s2 : List (String × AttrTy)) (d : ZfpDict)
    (hok : ∀ a ∈ s1, ∃ v w, lookupZ d (.plain a.1) = some v ∧ decodeAttr a.2 v = some w)
    (hmiss : lookupZ d (.plain attr) = none) :
    decodeAll (s1 ++ (attr, ty) :: s2) d = .error (keyErrorMsg attr) := by
  induction s1 with
  | nil => simp [decodeAll, hmiss]
  | cons a s1' ih =>
    obtain ⟨v, w, hv, hw⟩ := hok a (by simp)
    obtain ⟨anm, aty⟩ := a
    simp only [List.cons_append, decodeAll, hv, hw, List.append_eq]
    rw [ih fun x hx => hok x (List.mem_cons_of_mem _ hx)]

/-- Claim C4 (amended): `create_from_zfp` fails in the three cases — unknown
class name, missing schema attribute, constructor rejection — and returns a
fully constructed term when the name is registered, every schema attribute is
present and decodes, and the constructor and extra hook accept.  The
unknown-name and constructor errors mention the original inputs; the
missing-attribute failure however surfaces as a bare `KeyError` whose message
names only the missing schema attribute. -/
theorem claim_C4_factory_errors (name : String) (d : ZfpDict) :
    (findClass classMap name = none →
      create_from_zfp name d = .error ("Invalid force field term: " ++ name) ∧
      mentions ("Invalid force field term: " ++ name) name) ∧
    (∀ cls s1 attr ty s2, findClass classMap name = some cls →
      cls.schema = s1 ++ (attr, ty) :: s2 →
      (∀ a ∈ s1, ∃ v w, lookupZ d (.plain a.1) = some v ∧ decodeAttr a.2 v = some w) →
      lookupZ d (.plain attr) = none →
      create_from_zfp name d = .error (keyErrorMsg attr)) ∧
    (∀ cls vals, findClass classMap name = some cls →
      decodeAll cls.schema d = .ok vals → (∃ e, cls.ctor vals = .error e) →
      create_from_zfp name d =
        .error ("Cannot init " ++ name ++ " with kwargs " ++ dictStr d) ∧
      mentions ("Cannot init " ++ name ++ " with kwargs " ++ dictStr d) name ∧
      mentions ("Cannot init " ++ name ++ " with kwargs " ++ dictStr d) (dictStr d)) ∧
    (∀ cls vals term term', findClass classMap name = some cls →
      decodeAll cls.schema d = .ok vals → cls.ctor vals = .ok term →
      from_zfp_extra term d = .ok term' →
      create_from_zfp name d = .ok term') := by
  refine ⟨?_, ?_, ?_, ?_⟩
  · intro h
    refine ⟨?_, mentions_append_right _ (mentions_self name)⟩
    unfold create_from_zfp
    rw [h]
  · intro cls s1 attr ty s2 hf hs hok hmiss
    unfold create_from_zfp
    simp only [hf, hs, decodeAll_first_missing s1 attr ty s2 d hok hmiss]
  · rintro cls vals hf hd ⟨e, hc⟩
    refine ⟨?_, ?_, ?_⟩
    · unfold create_from_zfp
      simp only [hf, hd, hc]
    · exact mentions_append_left
        (mentions_append_left (mentions_append_right _ (mentions_self name)) _) _
    · exact mentions_append_right _ (mentions_self (dictStr d))
  · intro cls vals term term' hf hd hc he
    unfold create_from_zfp
    simp only [hf, hd, hc, he]

/-- Counterexample to C4 as stated: for the registered name `AtomType` and the
empty attribute mapping, the failure message is the bare key error `'name'`,
which contains neither the requested class name nor the supplied mapping. -/
theorem claim_C4_counterexample :
    create_from_zfp "AtomType" [] = .error "'name'" ∧
    ¬ mentions "'name'" "AtomType" ∧
    ¬ mentions "'name'" (dictStr ([] : ZfpDict)) :=
  ⟨rfl, by decide, by decide⟩

/-- Witness for C4: the three failure shapes and a success, at concrete
inputs. -/
theorem claim_C4_witness :
    (create_from_zfp "NoSuchTerm" [] = .error "Invalid force field term: NoSuchTerm" ∧
      mentions "Invalid force field term: NoSuchTerm" "NoSuchTerm") ∧
    create_from_zfp "AtomType" [] = .error "'name'" ∧
    (create_from_zfp "ChargeIncrementTerm"
        [(.plain "type1", .s "x"), (.plain "type2", .s "x"), (.plain "value", .q 1)] =
      .error ("Cannot init " ++ "ChargeIncrementTerm" ++ " with kwargs " ++
        dictStr [(.plain "type1", .s "x"), (.plain "type2", .s "x"),
          (.plain "value", .q 1)]) ∧
      mentions ("Cannot init " ++ "ChargeIncrementTerm" ++ " with kwargs " ++
        dictStr [(.plain "type1", .s "x"), (.plain "type2", .s "x"),
          (.plain "value", .q 1)]) "ChargeIncrementTerm") ∧
    create_from_zfp "DrudeTerm"
      [(.plain "type", .s "c"), (.plain "alpha", .q 1), (.plain "thole", .q 2),
       (.plain "k", .q 3), (.plain "mass", .q (2/5)), (.plain "merge_alpha_H", .q 0)] =
      .ok (.drude (DrudeTerm.init "c" 1 2 3 (2/5) 0)) := by
  refine ⟨(claim_C4_factory_errors "NoSuchTerm" []).1 rfl, ?_, ?_, ?_⟩
  · exact (claim_C4_factory_errors "AtomType" []).2.1 atomTypeClass [] "name" .str
      (atomTypeClass.schema.tail) rfl rfl (by simp) rfl
  · have h := (claim_C4_factory_errors "ChargeIncrementTerm"
      [(.plain "type1", .s "x"), (.plain "type2", .s "x"), (.plain "value", .q 1)]).2.2.1
      chargeIncrementClass [.s "x", .s "x", .q 1] rfl rfl
      ⟨"Non-zero charge increment between atoms of same type", rfl⟩
    exact ⟨h.1, h.2.1⟩
  · exact (claim_C4_factory_errors "DrudeTerm" _).2.2.2 drudeClass
      [.s "c", .q 1, .q 2, .q 3, .q (2/5), .q 0] (.drude (DrudeTerm.init "c" 1 2 3 (2/5) 0))
      (.drude (DrudeTerm.init "c" 1 2 3 (2/5) 0)) rfl rfl rfl rfl
